import Mathlib

/-!
# Synacor virtual machine (`vm.h`, `enum.h`, `vm.c`): embedding and properties

The C sources are embedded as pure functions over an explicit machine state.

Conventions of the embedding:

* machine integers are natural numbers; `uint16_t` arithmetic is reduced
  `% 65536` and `size_t` arithmetic `% 2 ^ 64` at the places where the C code
  can wrap;
* the load buffer is a list of bytes; a word is read from two consecutive
  bytes, low byte first (the host the sources target is little-endian and
  allows unaligned word access);
* the ambient `__current_state` pointer is replaced by the explicit `self`
  argument (it is set once by `VM_initialize` and never changes);
* a call of `VM_error` ends the process; it is the `fatal` exit and carries
  the message and the state at that moment;
* an access outside an object (registers, load buffer, stack block), a call of
  `realloc` on a pointer that is not the start of the block, and signed
  overflow are not defined by C; they are the `undefined` exit;
* `putchar` appends to `output`, `getchar` consumes `input`; the diagnostic
  text of `DBG` and of the coredump is not part of `output`;
* `VM_execute` loops, so it takes a fuel argument that bounds the number of
  fetch-decode-execute cycles.
-/

namespace Synacor

/-! ## Constants -/

def N_REGISTERS : Nat := 8
def N_STACK_SLOTS : Nat := 32
def STACK_REALLOC_INC : Nat := 4
def VM_MAX_LOADSIZE : Nat := 65536
def VM_MAX_LOADSIZE_S : String := "65536"

/-- Range of `uint16_t` (`__vm_word_t`, `__vm_register_t`, `pc`). -/
def WORD_RANGE : Nat := 65536
/-- Range of `size_t` on the 64-bit host. -/
def SIZE_RANGE : Nat := 2 ^ 64
/-- Largest value of `int` on the host (32-bit `int`). -/
def INT_MAX : Nat := 2147483647

/-! ## `enum.h` -/

structure opcode_t where
  name : String
  n_params : Nat
deriving DecidableEq, Repr

def OPCODE_LIST : List opcode_t :=
  [ ⟨"HALT", 0⟩, ⟨"SET", 2⟩, ⟨"PUSH", 1⟩, ⟨"POP", 1⟩, ⟨"EQ", 3⟩, ⟨"GT", 3⟩,
    ⟨"JMP", 1⟩, ⟨"JT", 2⟩, ⟨"JF", 2⟩, ⟨"ADD", 3⟩, ⟨"MULT", 3⟩, ⟨"MOD", 3⟩,
    ⟨"AND", 3⟩, ⟨"OR", 3⟩, ⟨"NOT", 2⟩, ⟨"RMEM", 2⟩, ⟨"WMEM", 2⟩, ⟨"CALL", 1⟩,
    ⟨"RET", 0⟩, ⟨"OUT", 1⟩, ⟨"IN", 1⟩, ⟨"NOP", 0⟩ ]

/-! ## State -/

/-- The stack object: `block` is the storage `calloc` returned (`none` while
`head` is `NULL`), `head` the offset in words of the `head` pointer from the
start of that storage. -/
structure vm_stack_t where
  block : Option (List Nat)
  head : Nat
  size : Nat
  capacity : Nat
deriving DecidableEq, Repr

structure vm_errstate where
  function : String
  reason : String
deriving DecidableEq, Repr

/-- The load buffer: `buffer` is `none` for `NULL`, else the bytes of the
array it points to; `size` is the separate length field. -/
structure vm_buffer where
  buffer : Option (List Nat)
  size : Nat
deriving DecidableEq, Repr

structure vm_state_t where
  pc : Nat
  registers : List Nat
  stack : vm_stack_t
  traceback : vm_errstate
  buffer : vm_buffer
  /-- bytes `getchar` will deliver -/
  input : List Nat
  /-- bytes `putchar` has written, oldest first -/
  output : List Nat
deriving DecidableEq, Repr

/-- The messages `VM_error` is called with. -/
inductive vm_error_msg
  /-- "__VM_get_stack() failed, stack state uninitialized" -/
  | stack_uninitialized
  /-- "__VM_stack_reallocate() failed, insufficient memory" -/
  | insufficient_memory
  /-- "VM_stack_pop() failed, tried to pop from empty stack" -/
  | pop_from_empty_stack
  /-- "tried to pop when stack is empty" -/
  | pop_when_empty
  /-- "program halted" -/
  | program_halted
  /-- "misaligned jmp, or operand not implemented yet" -/
  | misaligned_jmp
  /-- "operand overflow caught" -/
  | operand_overflow
  /-- "opcode received incorrect number of opcodes" -/
  | incorrect_number
deriving DecidableEq, Repr

/-- How a computation stops other than by returning. -/
inductive vm_exit
  /-- `VM_error (msg)`: message on stderr, then `exit (EXIT_FAILURE)` -/
  | fatal (msg : vm_error_msg)
  /-- the C code does something the language leaves undefined -/
  | undefined
deriving DecidableEq, Repr

/-- Result of a function that may stop the process: the exit together with
the state at that moment, or the returned value. -/
abbrev vm_result (α : Type) := Except (vm_exit × vm_state_t) α

def VM_error {α : Type} (msg : vm_error_msg) (self : vm_state_t) : vm_result α :=
  .error (.fatal msg, self)

def VM_undefined {α : Type} (self : vm_state_t) : vm_result α :=
  .error (.undefined, self)

/-! ## Words in a byte array -/

/-- Value of `*(__vm_word_t *) (&bytes[offset])`. -/
def word_at (bytes : List Nat) (offset : Nat) : Option Nat :=
  match bytes[offset]?, bytes[offset + 1]? with
  | some lo, some hi => some (lo + 256 * hi)
  | _, _ => none

/-- Effect of `*(__vm_word_t *) (&bytes[offset]) = v`. -/
def set_word_at (bytes : List Nat) (offset : Nat) (v : Nat) : Option (List Nat) :=
  if offset + 1 < bytes.length then
    some ((bytes.set offset (v % 256)).set (offset + 1) (v / 256 % 256))
  else none

/-! ## `vm.h` -/

def VM_get_stack (self : vm_state_t) : vm_result vm_stack_t :=
  match self.stack.block with
  | none => VM_error .stack_uninitialized self
  | some _ => .ok self.stack

def VM_set_traceback (self : vm_state_t) (function reason : String) : vm_state_t :=
  { self with traceback := { function := function, reason := reason } }

/-- The function `__VM_stack_reallocate`. The pointer handed to `realloc` is
`head - size` words from the start of the block (the caller has already
incremented `size`); `realloc` is defined only when that is the start of the
block. The new length is `capacity + 4` bytes; the result of `realloc` is
dropped by the C code, so the block is taken to be resized in place. -/
def VM_stack_reallocate (stack : vm_stack_t) : Option (Bool × vm_stack_t) :=
  match stack.block with
  | none => none
  | some cells =>
    if stack.head = stack.size then
      let words := (stack.capacity + STACK_REALLOC_INC) / 2
      some (true, { stack with
        block := some (cells.take words ++ List.replicate (words - cells.length) 0),
        capacity := (stack.capacity + STACK_REALLOC_INC) % SIZE_RANGE })
    else none

def VM_load (self : vm_state_t) (src : Option (List Nat)) (n : Nat) : Bool × vm_state_t :=
  if self.buffer.buffer ≠ none then
    (false, VM_set_traceback self "VM_load" "cannot double-load buffers")
  else if n > VM_MAX_LOADSIZE then
    (false, VM_set_traceback self "VM_load"
      ("cannot load buffers larger than " ++ VM_MAX_LOADSIZE_S ++ " bytes"))
  else
    (true, { self with buffer := { buffer := src, size := n } })

def VM_read_word (self : vm_state_t) : vm_result (Nat × vm_state_t) :=
  match self.buffer.buffer with
  | none => VM_undefined self
  | some bytes =>
    match word_at bytes self.pc with
    | none => VM_undefined self
    | some word => .ok (word, { self with pc := (self.pc + 2) % WORD_RANGE })

def VM_read_word_at (self : vm_state_t) (idx : Nat) : vm_result Nat :=
  match self.buffer.buffer with
  | none => VM_undefined self
  | some bytes =>
    match word_at bytes (2 * idx) with
    | none => VM_undefined self
    | some word => .ok word

def VM_stack_isempty (self : vm_state_t) : vm_result Bool := do
  let stack ← VM_get_stack self
  return stack.size == 0

def VM_stack_push (self : vm_state_t) (val : Nat) : vm_result vm_state_t := do
  let stack ← VM_get_stack self
  let bumped : vm_stack_t := { stack with size := (stack.size + 1) % SIZE_RANGE }
  let grown : Option (Bool × vm_stack_t) :=
    if stack.size = stack.capacity then VM_stack_reallocate bumped else some (true, bumped)
  match grown with
  | none => VM_undefined { self with stack := bumped }
  | some (false, st) => VM_error .insufficient_memory { self with stack := st }
  | some (true, st) =>
    match st.block with
    | none => VM_undefined { self with stack := st }
    | some cells =>
      if st.head < cells.length then
        return { self with stack :=
          { st with block := some (cells.set st.head val), head := st.head + 1 } }
      else VM_undefined { self with stack := st }

def VM_stack_pop (self : vm_state_t) : vm_result (Nat × vm_state_t) := do
  let stack ← VM_get_stack self
  let dropped : vm_stack_t :=
    { stack with size := (stack.size + SIZE_RANGE - 1) % SIZE_RANGE }
  if stack.size = 0 then
    VM_error .pop_from_empty_stack { self with stack := dropped }
  else
    match dropped.block with
    | none => VM_undefined { self with stack := dropped }
    | some cells =>
      if dropped.head = 0 then VM_undefined { self with stack := dropped }
      else
        match cells[dropped.head - 1]? with
        | none => VM_undefined { self with stack := dropped }
        | some word =>
          return (word, { self with stack := { dropped with head := dropped.head - 1 } })

def VM_stack_initialize (stack : vm_stack_t) (calloc_ok : Bool) : Bool × vm_stack_t :=
  if calloc_ok then
    (true, { stack with
      block := some (List.replicate N_STACK_SLOTS 0), head := 0,
      capacity := N_STACK_SLOTS })
  else
    (false, { stack with block := none, head := 0 })

def VM_interpret_value (self : vm_state_t) (value : Nat) : vm_result Nat :=
  if value ≥ 32768 then
    match self.registers[value - 32768]? with
    | some r => .ok r
    | none => VM_undefined self
  else .ok value

/-- What the pointer returned by `VM_interpret_lvalue` designates. -/
inductive vm_lvalue
  /-- `&state->registers[idx]` -/
  | register (idx : Nat)
  /-- `&state->buffer.buffer[offset]`, a byte offset into the load buffer -/
  | memory (offset : Nat)
deriving DecidableEq, Repr

def VM_interpret_lvalue (value : Nat) : vm_lvalue :=
  if value ≥ 32768 then .register (value - 32768) else .memory value

/-- Assignment `*p = v` through a pointer returned by `VM_interpret_lvalue`;
the assigned object is a `__vm_word_t`. -/
def vm_lvalue.assign (self : vm_state_t) (p : vm_lvalue) (v : Nat) : vm_result vm_state_t :=
  match p with
  | .register idx =>
    if idx < self.registers.length then
      .ok { self with registers := self.registers.set idx (v % WORD_RANGE) }
    else VM_undefined self
  | .memory offset =>
    match self.buffer.buffer with
    | none => VM_undefined self
    | some bytes =>
      match set_word_at bytes offset (v % WORD_RANGE) with
      | none => VM_undefined self
      | some bytes' => .ok { self with buffer := { self.buffer with buffer := some bytes' } }

/-- The loop of `print_coredump` over the stack: `i` counts up while the pops
shrink `size`; `fuel` bounds the iterations (the initial `size` suffices). -/
def print_coredump_loop : Nat → Nat → vm_state_t → vm_result vm_state_t
  | 0, _, self => .ok self
  | fuel + 1, i, self =>
    if i < self.stack.size then do
      let popped ← VM_stack_pop self
      print_coredump_loop fuel (i + 1) popped.2
    else .ok self

def print_coredump (self : vm_state_t) : vm_result vm_state_t :=
  print_coredump_loop self.stack.size 0 self

def VM_opcode_halt (self : vm_state_t) (_operands : List Nat) : vm_result vm_state_t := do
  let self' ← print_coredump self
  VM_error .program_halted self'

def VM_opcode_set (self : vm_state_t) (operands : List Nat) : vm_result vm_state_t := do
  let v ← VM_interpret_value self (operands.getD 1 0)
  vm_lvalue.assign self (VM_interpret_lvalue (operands.getD 0 0)) v

def VM_opcode_push (self : vm_state_t) (operands : List Nat) : vm_result vm_state_t := do
  let v ← VM_interpret_value self (operands.getD 0 0)
  VM_stack_push self v

def VM_opcode_pop (self : vm_state_t) (operands : List Nat) : vm_result vm_state_t := do
  let empty ← VM_stack_isempty self
  if empty then VM_error .pop_when_empty self
  else do
    let popped ← VM_stack_pop self
    vm_lvalue.assign popped.2 (VM_interpret_lvalue (operands.getD 0 0)) popped.1

def VM_opcode_eq (self : vm_state_t) (operands : List Nat) : vm_result vm_state_t := do
  let vb ← VM_interpret_value self (operands.getD 1 0)
  let vc ← VM_interpret_value self (operands.getD 2 0)
  vm_lvalue.assign self (VM_interpret_lvalue (operands.getD 0 0)) (if vb = vc then 1 else 0)

def VM_opcode_gt (self : vm_state_t) (operands : List Nat) : vm_result vm_state_t := do
  let vb ← VM_interpret_value self (operands.getD 1 0)
  let vc ← VM_interpret_value self (operands.getD 2 0)
  vm_lvalue.assign self (VM_interpret_lvalue (operands.getD 0 0)) (if vb > vc then 1 else 0)

def VM_opcode_jmp (self : vm_state_t) (operands : List Nat) : vm_result vm_state_t := do
  let v ← VM_interpret_value self (operands.getD 0 0)
  return { self with pc := (v * 2) % WORD_RANGE }

def VM_opcode_jt (self : vm_state_t) (operands : List Nat) : vm_result vm_state_t := do
  let v ← VM_interpret_value self (operands.getD 0 0)
  if v ≠ 0 then VM_opcode_jmp self (operands.drop 1) else return self

def VM_opcode_jf (self : vm_state_t) (operands : List Nat) : vm_result vm_state_t := do
  let v ← VM_interpret_value self (operands.getD 0 0)
  if v = 0 then VM_opcode_jmp self (operands.drop 1) else return self

def VM_opcode_add (self : vm_state_t) (operands : List Nat) : vm_result vm_state_t := do
  let vb ← VM_interpret_value self (operands.getD 1 0)
  let vc ← VM_interpret_value self (operands.getD 2 0)
  vm_lvalue.assign self (VM_interpret_lvalue (operands.getD 0 0)) ((vb + vc) % 32768)

/-- The product is computed in `int`; beyond `INT_MAX` it overflows. -/
def VM_opcode_mult (self : vm_state_t) (operands : List Nat) : vm_result vm_state_t := do
  let vb ← VM_interpret_value self (operands.getD 1 0)
  let vc ← VM_interpret_value self (operands.getD 2 0)
  if vb * vc > INT_MAX then VM_undefined self
  else vm_lvalue.assign self (VM_interpret_lvalue (operands.getD 0 0)) ((vb * vc) % 32768)

/-- The operator `%` with a zero right operand is not defined by C. -/
def VM_opcode_mod (self : vm_state_t) (operands : List Nat) : vm_result vm_state_t := do
  let vb ← VM_interpret_value self (operands.getD 1 0)
  let vc ← VM_interpret_value self (operands.getD 2 0)
  if vc = 0 then VM_undefined self
  else vm_lvalue.assign self (VM_interpret_lvalue (operands.getD 0 0)) (vb % vc)

def VM_opcode_and_ (self : vm_state_t) (operands : List Nat) : vm_result vm_state_t := do
  let vb ← VM_interpret_value self (operands.getD 1 0)
  let vc ← VM_interpret_value self (operands.getD 2 0)
  vm_lvalue.assign self (VM_interpret_lvalue (operands.getD 0 0)) (vb &&& vc)

def VM_opcode_or_ (self : vm_state_t) (operands : List Nat) : vm_result vm_state_t := do
  let vb ← VM_interpret_value self (operands.getD 1 0)
  let vc ← VM_interpret_value self (operands.getD 2 0)
  vm_lvalue.assign self (VM_interpret_lvalue (operands.getD 0 0)) (vb ||| vc)

/-- The complement is taken in 32-bit `int`: `~v` has the bits of
`4294967295 - v`. -/
def VM_opcode_not_ (self : vm_state_t) (operands : List Nat) : vm_result vm_state_t := do
  let v ← VM_interpret_value self (operands.getD 1 0)
  vm_lvalue.assign self (VM_interpret_lvalue (operands.getD 0 0)) ((4294967295 - v) &&& 0x7fff)

def VM_opcode_rmem (self : vm_state_t) (operands : List Nat) : vm_result vm_state_t := do
  let idx ← VM_interpret_value self (operands.getD 1 0)
  let word ← VM_read_word_at self idx
  vm_lvalue.assign self (VM_interpret_lvalue (operands.getD 0 0)) word

/-- The argument `2 * VM_interpret_value (operands[0])` is an `int` converted
to the `__vm_word_t` parameter of `VM_interpret_lvalue`. -/
def VM_opcode_wmem (self : vm_state_t) (operands : List Nat) : vm_result vm_state_t := do
  let va ← VM_interpret_value self (operands.getD 0 0)
  let vb ← VM_interpret_value self (operands.getD 1 0)
  vm_lvalue.assign self (VM_interpret_lvalue ((2 * va) % WORD_RANGE)) vb

/-- The pushed word is `ceil ((float) pc / 2.0)`, exactly `(pc + 1) / 2` for
a 16-bit `pc`. -/
def VM_opcode_call (self : vm_state_t) (operands : List Nat) : vm_result vm_state_t := do
  let self' ← VM_stack_push self ((self.pc + 1) / 2)
  VM_opcode_jmp self' operands

def VM_opcode_ret (self : vm_state_t) (_operands : List Nat) : vm_result vm_state_t := do
  let popped ← VM_stack_pop self
  return { popped.2 with pc := popped.1 }

/-- The call `putchar ((char) operands[0])` writes the low byte of the operand word. -/
def VM_opcode_out (self : vm_state_t) (operands : List Nat) : vm_result vm_state_t :=
  .ok { self with output := self.output ++ [operands.getD 0 0 % 256] }

/-- The call `getchar ()` returns the next byte, or `EOF` (`-1`, as a word 65535). -/
def VM_opcode_in (self : vm_state_t) (operands : List Nat) : vm_result vm_state_t :=
  match self.input with
  | [] => vm_lvalue.assign self (VM_interpret_lvalue (operands.getD 0 0)) 65535
  | c :: rest =>
    vm_lvalue.assign { self with input := rest } (VM_interpret_lvalue (operands.getD 0 0)) c

def VM_opcode_nop (self : vm_state_t) (_operands : List Nat) : vm_result vm_state_t :=
  .ok self

def opcode_fn_table : List (vm_state_t → List Nat → vm_result vm_state_t) :=
  [ VM_opcode_halt, VM_opcode_set, VM_opcode_push, VM_opcode_pop, VM_opcode_eq,
    VM_opcode_gt, VM_opcode_jmp, VM_opcode_jt, VM_opcode_jf, VM_opcode_add,
    VM_opcode_mult, VM_opcode_mod, VM_opcode_and_, VM_opcode_or_, VM_opcode_not_,
    VM_opcode_rmem, VM_opcode_wmem, VM_opcode_call, VM_opcode_ret, VM_opcode_out,
    VM_opcode_in, VM_opcode_nop ]

/-- The `for` loop of `VM_execute` that reads the operands: `i` is the loop
counter, `remaining` is `opcode.n_params - i`. Returns the operand array, the
final `i` and the state. -/
def VM_read_operands (self : vm_state_t) (operands : List Nat) (i : Nat) :
    Nat → vm_result (List Nat × Nat × vm_state_t)
  | 0 => .ok (operands, i, self)
  | remaining + 1 => do
    let read ← VM_read_word self
    if read.1 ≥ 32776 then VM_error .operand_overflow read.2
    else VM_read_operands read.2 (operands.set i read.1) (i + 1) remaining

/-- One pass through the body of the `while` loop of `VM_execute`. -/
def VM_execute_cycle (self : vm_state_t) : vm_result vm_state_t := do
  let fetched ← VM_read_word self
  match OPCODE_LIST[fetched.1]?, opcode_fn_table[fetched.1]? with
  | some opcode, some handler => do
    let decoded ← VM_read_operands fetched.2 [0, 0, 0] 0 opcode.n_params
    if decoded.2.1 ≠ opcode.n_params then VM_error .incorrect_number decoded.2.2
    else handler decoded.2.2 decoded.1
  | _, _ => VM_error .misaligned_jmp fetched.2

/-- How a call of `VM_execute` ends. -/
inductive vm_run
  /-- the function returned `value` -/
  | returned (value : Bool) (self : vm_state_t)
  /-- the process stopped inside the loop -/
  | exited (e : vm_exit) (self : vm_state_t)
  /-- the fuel of the embedding ran out while the loop was still running -/
  | out_of_fuel (self : vm_state_t)
deriving DecidableEq, Repr

def VM_execute : Nat → vm_state_t → vm_run
  | 0, self =>
    if self.pc < self.buffer.size then .out_of_fuel self else .returned true self
  | fuel + 1, self =>
    if self.pc < self.buffer.size then
      match VM_execute_cycle self with
      | .error (e, self') => .exited e self'
      | .ok self' => VM_execute fuel self'
    else .returned true self

/-- The function `VM_initialize` on a state structure with content `state`;
`calloc_ok` tells whether the `calloc` of the stack storage succeeds. The
fields `pc`, `traceback` and `buffer.size` are not written. -/
def VM_initialize (state : vm_state_t) (calloc_ok : Bool) : Bool × vm_state_t :=
  let state1 : vm_state_t := { state with buffer := { state.buffer with buffer := none } }
  let stack : vm_stack_t := { block := none, head := 0, size := 0, capacity := N_STACK_SLOTS }
  match VM_stack_initialize stack calloc_ok with
  | (false, stack') =>
    (false, VM_set_traceback { state1 with stack := stack' }
      "VM_stack_initialize" "failed to allocate sufficient memory")
  | (true, stack') =>
    (true, { state1 with stack := stack', registers := List.replicate N_REGISTERS 0 })

/-! ## `vm.c` -/

/-- How `main` ends once the image file has been read. -/
inductive main_result
  /-- the function `halt_with_traceback` was called: traceback printed, exit with failure -/
  | halt_with_traceback (self : vm_state_t)
  /-- the function `execute` was called and ended this way -/
  | executed (run : vm_run)
deriving DecidableEq, Repr

/-- The part of `main` after the file has been read into `program_buffer`:
`vm_state` is the content of the automatic variable before `VM_initialize`. -/
def main (vm_state : vm_state_t) (calloc_ok : Bool) (program_buffer : List Nat)
    (fuel : Nat) : main_result :=
  match VM_initialize vm_state calloc_ok with
  | (false, vm_state1) => .halt_with_traceback vm_state1
  | (true, vm_state1) =>
    match VM_load vm_state1 (some program_buffer) program_buffer.length with
    | (false, vm_state2) => .halt_with_traceback vm_state2
    | (true, vm_state2) => .executed (VM_execute fuel vm_state2)

/-! ## Definitions used in the statements -/

/-- Bytes of an image given as words, low byte first. -/
def image_bytes : List Nat → List Nat
  | [] => []
  | w :: ws => (w % 256) :: (w / 256 % 256) :: image_bytes ws

/-- A state structure with every field cleared. -/
def zero_state : vm_state_t :=
  { pc := 0, registers := [], stack := { block := none, head := 0, size := 0, capacity := 0 },
    traceback := { function := "", reason := "" }, buffer := { buffer := none, size := 0 },
    input := [], output := [] }

/-- The state `main` hands to `execute`: `VM_initialize` on a structure with
content `state` (allocation succeeding), then `load` of `n` bytes at `bytes`. -/
def loaded_from (state : vm_state_t) (bytes : List Nat) (n : Nat) : vm_state_t :=
  (VM_load ( VM_initialize state true).2 (some bytes) n).2

/-- The state `loaded_from` gives on `zero_state` for an image given as words. -/
def loaded_state (image : List Nat) : vm_state_t :=
  loaded_from zero_state (image_bytes image) (2 * image.length)

/-- Byte offset at which the operand loop of `VM_execute` reads operand `j` of
the instruction whose opcode word is at byte offset `pc`. -/
def operand_offset (pc j : Nat) : Nat := (pc + 2 + 2 * j) % WORD_RANGE

/-- A result that is not the `operand overflow caught` exit. -/
def no_overflow {α : Type} (r : vm_result α) : Prop :=
  ∀ s, r ≠ .error (.fatal .operand_overflow, s)

/-- Value of `*p` for a pointer returned by `VM_interpret_lvalue`, `none` when
it designates no object. -/
def vm_lvalue.read (self : vm_state_t) (p : vm_lvalue) : Option Nat :=
  match p with
  | .register idx => self.registers[idx]?
  | .memory offset =>
    match self.buffer.buffer with
    | none => none
    | some bytes => word_at bytes offset

/-- The calls `VM_stack_push (p1)`, ..., `VM_stack_push (pk)` in sequence. -/
def push_all (self : vm_state_t) : List Nat → vm_result vm_state_t
  | [] => .ok self
  | p :: ps => do
    let self' ← VM_stack_push self p
    push_all self' ps

/-- The function `VM_stack_pop` called `k` times; returns the popped words in
the order they were popped. -/
def pop_all (self : vm_state_t) : Nat → vm_result (List Nat × vm_state_t)
  | 0 => .ok ([], self)
  | k + 1 => do
    let popped ← VM_stack_pop self
    let rest ← pop_all popped.2 k
    return (popped.1 :: rest.1, rest.2)

/-- The operand array after the operand loop has stored the words `ws` from
index `i` on. -/
def store_operands (operands : List Nat) (i : Nat) : List Nat → List Nat
  | [] => operands
  | w :: ws => store_operands (operands.set i w) (i + 1) ws

/-- Check that the words `ws` are the operand words stored from operand
position `j` on for the instruction at byte offset `pc`, each below 32776. -/
def operands_at (bytes : List Nat) (pc : Nat) : Nat → List Nat → Bool
  | _, [] => true
  | j, w :: ws =>
    (word_at bytes (operand_offset pc j) == some w) && decide (w < 32776)
      && operands_at bytes pc (j + 1) ws

/-- An image of 16385 words: `WMEM 16384, 7` followed by zero words; word
address 16384 is its last word. -/
@[irreducible] def wmem_image : List Nat := image_bytes [16, 16384, 7] ++ List.replicate 32764 0

/-- The exits a handler of `opcode_fn_table` can end in: behaviour C leaves
undefined, and the `VM_error` calls of the stack functions, of `pop` and of
`halt`. -/
def handler_exit : vm_exit → Bool
  | .undefined => true
  | .fatal .stack_uninitialized => true
  | .fatal .insufficient_memory => true
  | .fatal .pop_from_empty_stack => true
  | .fatal .pop_when_empty => true
  | .fatal .program_halted => true
  | .fatal .misaligned_jmp => false
  | .fatal .operand_overflow => false
  | .fatal .incorrect_number => false

/-- A result whose exit, if it is one, is among `handler_exit`. -/
def handler_exits {α : Type} (r : vm_result α) : Prop :=
  ∀ e s, r = .error (e, s) → handler_exit e = true

/-- An image of 32768 words (65536 bytes, the largest `VM_load` accepts):
`JMP 32767`, zero words, and `NOP` as the last word, at word address 32767. -/
@[irreducible] def wrap_image : List Nat :=
  image_bytes [6, 32767] ++ (List.replicate 65530 0 ++ image_bytes [21])

/-- Opcode indices of the instructions the frame property of register targets
is stated for: SET, EQ, GT, ADD, MULT, MOD, AND, OR, NOT, RMEM. -/
def register_target_opcodes : List Nat := [1, 4, 5, 9, 10, 11, 12, 13, 14, 15]

/-- Those of `register_target_opcodes` whose handler returns for all legal
operands: SET, EQ, GT, ADD, AND, OR, NOT. -/
def total_register_target_opcodes : List Nat := [1, 4, 5, 9, 12, 13, 14]

/-- Opcode indices of the instructions that are not control transfers: all but
HALT, JMP, JT, JF, CALL, RET. -/
def sequential_opcodes : List Nat := [1, 2, 3, 4, 5, 9, 10, 11, 12, 13, 14, 15, 16, 19, 20, 21]

/-- A result that, when it is a returned state, has the given `pc`. -/
def keeps_pc (pc : Nat) (r : vm_result vm_state_t) : Prop :=
  ∀ s, r = .ok s → s.pc = pc

/-! ## Lemmas -/

@[simp] theorem ok_bind {α β : Type} (a : α) (k : α → vm_result β) :
    ((Except.ok a : vm_result α) >>= k) = k a := rfl

@[simp] theorem error_bind {α β : Type} (e : vm_exit × vm_state_t) (k : α → vm_result β) :
    ((Except.error e : vm_result α) >>= k) = Except.error e := rfl

@[simp] theorem VM_error_bind {α β : Type} (msg : vm_error_msg) (self : vm_state_t)
    (k : α → vm_result β) : ((VM_error msg self : vm_result α) >>= k) = VM_error msg self := rfl

@[simp] theorem VM_undefined_bind {α β : Type} (self : vm_state_t) (k : α → vm_result β) :
    ((VM_undefined self : vm_result α) >>= k) = VM_undefined self := rfl

@[simp] theorem pure_eq_ok {α : Type} (a : α) : (pure a : vm_result α) = Except.ok a := rfl

theorem set_pc_set_pc (self : vm_state_t) (a b : Nat) :
    ({ ({ self with pc := a } : vm_state_t) with pc := b } : vm_state_t) = { self with pc := b } := rfl

theorem read_operands_overflow (bytes : List Nat) :
    ∀ (remaining i : Nat) (self : vm_state_t) (operands : List Nat) (k v : Nat),
      self.buffer.buffer = some bytes → self.pc < WORD_RANGE → k < remaining →
      (∀ j, j ≤ k → ∃ w, word_at bytes ((self.pc + 2 * j) % WORD_RANGE) = some w) →
      word_at bytes ((self.pc + 2 * k) % WORD_RANGE) = some v → 32776 ≤ v →
      ∃ pc', VM_read_operands self operands i remaining
        = VM_error .operand_overflow { self with pc := pc' } := by
  intro remaining
  induction remaining with
  | zero => intro i self operands k v _ _ hk; omega
  | succ r ih =>
    intro i self operands k v hbuf hpc hk hin hv hge
    obtain ⟨w0, hw0⟩ := hin 0 (Nat.zero_le k)
    have hpc0 : (self.pc + 2 * 0) % WORD_RANGE = self.pc := by
      simpa using Nat.mod_eq_of_lt hpc
    rw [hpc0] at hw0
    by_cases hov : 32776 ≤ w0
    · exact ⟨(self.pc + 2) % WORD_RANGE, by
        simp [VM_read_operands, VM_read_word, hbuf, hw0, hov]⟩
    · have hk0 : k ≠ 0 := by
        intro h0
        subst h0
        rw [hpc0, hw0] at hv
        injection hv with hv
        omega
      have hshift : ∀ j, (((self.pc + 2) % WORD_RANGE) + 2 * j) % WORD_RANGE
          = (self.pc + 2 * (j + 1)) % WORD_RANGE := by
        intro j; unfold WORD_RANGE; omega
      obtain ⟨pc', hpc'⟩ := ih (i + 1) { self with pc := (self.pc + 2) % WORD_RANGE }
        (operands.set i w0) (k - 1) v hbuf (Nat.mod_lt _ (by decide)) (by omega)
        (by
          intro j hj
          have := hin (j + 1) (by omega)
          simpa [hshift] using this)
        (by
          have : k - 1 + 1 = k := by omega
          simpa [hshift, this] using hv)
        hge
      exact ⟨pc', by
        simp only [VM_read_operands, VM_read_word, hbuf, hw0, ok_bind, ge_iff_le, hov, if_false]
        rw [hpc']⟩

theorem fn_table_of_opcode (idx : Nat) (opcode : opcode_t)
    (h : OPCODE_LIST[idx]? = some opcode) : ∃ handler, opcode_fn_table[idx]? = some handler := by
  have hlt : idx < 22 := by
    have := (List.getElem?_eq_some.mp h).1
    simpa [OPCODE_LIST] using this
  have : idx < opcode_fn_table.length := by simpa [opcode_fn_table] using hlt
  exact ⟨opcode_fn_table[idx], List.getElem?_eq_getElem this⟩

theorem cycle_operand_overflow (self : vm_state_t) (bytes : List Nat) (opcode_idx : Nat)
    (opcode : opcode_t) (k v : Nat)
    (hbuf : self.buffer.buffer = some bytes)
    (hop : word_at bytes self.pc = some opcode_idx)
    (hknown : OPCODE_LIST[opcode_idx]? = some opcode)
    (hk : k < opcode.n_params)
    (hin : ∀ j, j ≤ k → ∃ w, word_at bytes (operand_offset self.pc j) = some w)
    (hv : word_at bytes (operand_offset self.pc k) = some v)
    (hge : 32776 ≤ v) :
    ∃ pc', VM_execute_cycle self = VM_error .operand_overflow { self with pc := pc' } := by
  obtain ⟨handler, hh⟩ := fn_table_of_opcode opcode_idx opcode hknown
  have hshift : ∀ j, (((self.pc + 2) % WORD_RANGE) + 2 * j) % WORD_RANGE
      = operand_offset self.pc j := by
    intro j; unfold operand_offset WORD_RANGE; omega
  obtain ⟨pc', hpc'⟩ := read_operands_overflow bytes opcode.n_params 0
    { self with pc := (self.pc + 2) % WORD_RANGE } [0, 0, 0] k v hbuf
    (Nat.mod_lt _ (by decide)) hk
    (by intro j hj; simpa [hshift] using hin j hj)
    (by simpa [hshift] using hv) hge
  refine ⟨pc', ?_⟩
  simp only [VM_execute_cycle, VM_read_word, hbuf, hop, ok_bind, hknown, hh, hpc', VM_error_bind]

theorem no_overflow_ok {α : Type} (a : α) : no_overflow (.ok a : vm_result α) := by
  intro s h; cases h

theorem no_overflow_undefined {α : Type} (self : vm_state_t) :
    no_overflow (VM_undefined self : vm_result α) := by
  intro s h; simp [VM_undefined] at h

theorem no_overflow_error {α : Type} (msg : vm_error_msg) (self : vm_state_t)
    (hmsg : msg ≠ .operand_overflow) : no_overflow (VM_error msg self : vm_result α) := by
  intro s h
  simp only [VM_error, Except.error.injEq, Prod.mk.injEq, vm_exit.fatal.injEq] at h
  exact hmsg h.1

/-- Sequencing as the handlers do it: stop on an exit, else continue. -/
theorem no_overflow_seq {α β : Type} (r : vm_result α) (k : α → vm_result β)
    (hr : no_overflow r) (hk : ∀ a, no_overflow (k a)) :
    no_overflow (r >>= k) := by
  cases r with
  | error e =>
    intro s h
    apply hr s
    simpa using h
  | ok a => exact hk a

theorem interpret_value_no_overflow (self : vm_state_t) (v : Nat) :
    no_overflow (VM_interpret_value self v) := by
  unfold VM_interpret_value
  split
  · split
    · exact no_overflow_ok _
    · exact no_overflow_undefined _
  · exact no_overflow_ok _

theorem assign_no_overflow (self : vm_state_t) (p : vm_lvalue) (v : Nat) :
    no_overflow (vm_lvalue.assign self p v) := by
  unfold vm_lvalue.assign
  split
  · split
    · exact no_overflow_ok _
    · exact no_overflow_undefined _
  · split
    · exact no_overflow_undefined _
    · split
      · exact no_overflow_undefined _
      · exact no_overflow_ok _

theorem get_stack_no_overflow (self : vm_state_t) : no_overflow (VM_get_stack self) := by
  unfold VM_get_stack
  split
  · exact no_overflow_error _ _ (by decide)
  · exact no_overflow_ok _

theorem stack_push_no_overflow (self : vm_state_t) (v : Nat) :
    no_overflow (VM_stack_push self v) := by
  unfold VM_stack_push
  apply no_overflow_seq _ _ (get_stack_no_overflow self)
  intro stack
  dsimp only
  split
  · exact no_overflow_undefined _
  · exact no_overflow_error _ _ (by decide)
  · split
    · exact no_overflow_undefined _
    · split
      · exact no_overflow_ok _
      · exact no_overflow_undefined _

theorem stack_pop_no_overflow (self : vm_state_t) : no_overflow (VM_stack_pop self) := by
  unfold VM_stack_pop
  apply no_overflow_seq _ _ (get_stack_no_overflow self)
  intro stack
  dsimp only
  split
  · exact no_overflow_error _ _ (by decide)
  · split
    · exact no_overflow_undefined _
    · split
      · exact no_overflow_undefined _
      · split
        · exact no_overflow_undefined _
        · exact no_overflow_ok _

theorem stack_isempty_no_overflow (self : vm_state_t) : no_overflow (VM_stack_isempty self) := by
  unfold VM_stack_isempty
  exact no_overflow_seq _ _ (get_stack_no_overflow self) (fun _ => no_overflow_ok _)

theorem read_word_at_no_overflow (self : vm_state_t) (idx : Nat) :
    no_overflow (VM_read_word_at self idx) := by
  unfold VM_read_word_at
  split
  · exact no_overflow_undefined _
  · split
    · exact no_overflow_undefined _
    · exact no_overflow_ok _

theorem read_word_no_overflow (self : vm_state_t) : no_overflow (VM_read_word self) := by
  unfold VM_read_word
  split
  · exact no_overflow_undefined _
  · split
    · exact no_overflow_undefined _
    · exact no_overflow_ok _

theorem coredump_loop_no_overflow :
    ∀ (fuel i : Nat) (self : vm_state_t), no_overflow (print_coredump_loop fuel i self) := by
  intro fuel
  induction fuel with
  | zero => intro i self; exact no_overflow_ok _
  | succ n ih =>
    intro i self
    unfold print_coredump_loop
    split
    · exact no_overflow_seq _ _ (stack_pop_no_overflow self) (fun a => ih _ _)
    · exact no_overflow_ok _

theorem jmp_no_overflow (self : vm_state_t) (operands : List Nat) :
    no_overflow (VM_opcode_jmp self operands) := by
  unfold VM_opcode_jmp
  exact no_overflow_seq _ _ (interpret_value_no_overflow _ _) (fun _ => no_overflow_ok _)

theorem handler_no_overflow (idx : Nat)
    (handler : vm_state_t → List Nat → vm_result vm_state_t)
    (hh : opcode_fn_table[idx]? = some handler) (self : vm_state_t) (operands : List Nat) :
    no_overflow (handler self operands) := by
  have hmem : handler ∈ opcode_fn_table := List.getElem?_mem hh
  have hv := fun v => interpret_value_no_overflow self v
  have ha := fun s p v => assign_no_overflow s p v
  simp only [opcode_fn_table, List.mem_cons, List.mem_singleton, List.not_mem_nil, or_false] at hmem
  rcases hmem with h | h | h | h | h | h | h | h | h | h | h | h | h | h | h | h | h | h | h | h | h | h
    <;> subst h
  · exact no_overflow_seq _ _ (coredump_loop_no_overflow _ _ _)
      (fun _ => no_overflow_error _ _ (by decide))
  · exact no_overflow_seq _ _ (hv _) (fun _ => ha _ _ _)
  · exact no_overflow_seq _ _ (hv _) (fun _ => stack_push_no_overflow _ _)
  · refine no_overflow_seq _ _ (stack_isempty_no_overflow _) (fun empty => ?_)
    cases empty
    · exact no_overflow_seq _ _ (stack_pop_no_overflow _) (fun _ => ha _ _ _)
    · exact no_overflow_error _ _ (by decide)
  · exact no_overflow_seq _ _ (hv _) (fun _ => no_overflow_seq _ _ (hv _) (fun _ => ha _ _ _))
  · exact no_overflow_seq _ _ (hv _) (fun _ => no_overflow_seq _ _ (hv _) (fun _ => ha _ _ _))
  · exact jmp_no_overflow _ _
  · refine no_overflow_seq _ _ (hv _) (fun v => ?_)
    by_cases h0 : v ≠ 0
    · simpa [h0] using jmp_no_overflow _ _
    · simpa [h0] using no_overflow_ok self
  · refine no_overflow_seq _ _ (hv _) (fun v => ?_)
    by_cases h0 : v = 0
    · simpa [h0] using jmp_no_overflow _ _
    · simpa [h0] using no_overflow_ok self
  · exact no_overflow_seq _ _ (hv _) (fun _ => no_overflow_seq _ _ (hv _) (fun _ => ha _ _ _))
  · refine no_overflow_seq _ _ (hv _) (fun vb => no_overflow_seq _ _ (hv _) (fun vc => ?_))
    by_cases h0 : vb * vc > INT_MAX
    · simpa [h0] using (no_overflow_undefined self : no_overflow (VM_undefined self : vm_result vm_state_t))
    · simpa [h0] using ha _ _ _
  · refine no_overflow_seq _ _ (hv _) (fun vb => no_overflow_seq _ _ (hv _) (fun vc => ?_))
    by_cases h0 : vc = 0
    · simpa [h0] using (no_overflow_undefined self : no_overflow (VM_undefined self : vm_result vm_state_t))
    · simpa [h0] using ha _ _ _
  · exact no_overflow_seq _ _ (hv _) (fun _ => no_overflow_seq _ _ (hv _) (fun _ => ha _ _ _))
  · exact no_overflow_seq _ _ (hv _) (fun _ => no_overflow_seq _ _ (hv _) (fun _ => ha _ _ _))
  · exact no_overflow_seq _ _ (hv _) (fun _ => ha _ _ _)
  · exact no_overflow_seq _ _ (hv _)
      (fun _ => no_overflow_seq _ _ (read_word_at_no_overflow _ _) (fun _ => ha _ _ _))
  · exact no_overflow_seq _ _ (hv _) (fun _ => no_overflow_seq _ _ (hv _) (fun _ => ha _ _ _))
  · exact no_overflow_seq _ _ (stack_push_no_overflow _ _) (fun _ => jmp_no_overflow _ _)
  · exact no_overflow_seq _ _ (stack_pop_no_overflow _) (fun _ => no_overflow_ok _)
  · exact no_overflow_ok _
  · unfold VM_opcode_in
    split
    · exact ha _ _ _
    · exact ha _ _ _
  · exact no_overflow_ok _

theorem read_operands_no_overflow (bytes : List Nat) :
    ∀ (remaining i : Nat) (self : vm_state_t) (operands : List Nat),
      self.buffer.buffer = some bytes → self.pc < WORD_RANGE →
      (∀ j w, j < remaining → word_at bytes ((self.pc + 2 * j) % WORD_RANGE) = some w → w < 32776) →
      no_overflow (VM_read_operands self operands i remaining) := by
  intro remaining
  induction remaining with
  | zero => intro i self operands _ _ _; exact no_overflow_ok _
  | succ r ih =>
    intro i self operands hbuf hpc hall
    have hpc0 : (self.pc + 2 * 0) % WORD_RANGE = self.pc := by
      simpa using Nat.mod_eq_of_lt hpc
    have hshift : ∀ j, (((self.pc + 2) % WORD_RANGE) + 2 * j) % WORD_RANGE
        = (self.pc + 2 * (j + 1)) % WORD_RANGE := by
      intro j; unfold WORD_RANGE; omega
    unfold VM_read_operands
    cases hw : word_at bytes self.pc with
    | none =>
      simpa [VM_read_word, hbuf, hw] using
        (no_overflow_undefined self : no_overflow (VM_undefined self : vm_result (List Nat × Nat × vm_state_t)))
    | some w0 =>
      have hlt : ¬ 32776 ≤ w0 := by
        have := hall 0 w0 (by omega) (by rw [hpc0]; exact hw)
        omega
      simp only [VM_read_word, hbuf, hw, ok_bind, ge_iff_le, hlt, if_false]
      apply ih (i + 1) { self with pc := (self.pc + 2) % WORD_RANGE } _ hbuf
        (Nat.mod_lt _ (by decide))
      intro j w hj hjw
      exact hall (j + 1) w (by omega) (by simpa [hshift] using hjw)

theorem cycle_no_overflow (self : vm_state_t) (bytes : List Nat) (opcode_idx : Nat)
    (opcode : opcode_t)
    (hbuf : self.buffer.buffer = some bytes)
    (hop : word_at bytes self.pc = some opcode_idx)
    (hknown : OPCODE_LIST[opcode_idx]? = some opcode)
    (hall : ∀ j w, j < opcode.n_params →
      word_at bytes (operand_offset self.pc j) = some w → w < 32776) :
    no_overflow (VM_execute_cycle self) := by
  obtain ⟨handler, hh⟩ := fn_table_of_opcode opcode_idx opcode hknown
  have hshift : ∀ j, (((self.pc + 2) % WORD_RANGE) + 2 * j) % WORD_RANGE
      = operand_offset self.pc j := by
    intro j; unfold operand_offset WORD_RANGE; omega
  have hloop := read_operands_no_overflow bytes opcode.n_params 0
    { self with pc := (self.pc + 2) % WORD_RANGE } [0, 0, 0] hbuf
    (Nat.mod_lt _ (by decide))
    (by intro j w hj hjw; exact hall j w hj (by simpa [hshift] using hjw))
  simp only [VM_execute_cycle, VM_read_word, hbuf, hop, ok_bind, hknown, hh]
  refine no_overflow_seq _ _ hloop (fun decoded => ?_)
  by_cases hi : decoded.2.1 ≠ opcode.n_params
  · simpa [hi] using (no_overflow_error .incorrect_number decoded.2.2 (by decide) :
      no_overflow (VM_error .incorrect_number decoded.2.2 : vm_result vm_state_t))
  · simpa [hi] using handler_no_overflow opcode_idx handler hh decoded.2.2 decoded.1


theorem read_operands_ok (bytes : List Nat) :
    ∀ (ws : List Nat) (i : Nat) (self : vm_state_t) (operands : List Nat),
      self.buffer.buffer = some bytes → self.pc < WORD_RANGE →
      (∀ j (hj : j < ws.length),
        word_at bytes ((self.pc + 2 * j) % WORD_RANGE) = some ws[j] ∧ ws[j] < 32776) →
      VM_read_operands self operands i ws.length
        = .ok (store_operands operands i ws, i + ws.length,
            { self with pc := (self.pc + 2 * ws.length) % WORD_RANGE }) := by
  intro ws
  induction ws with
  | nil =>
    intro i self operands _ hpc _
    have : (self.pc + 2 * 0) % WORD_RANGE = self.pc := by simpa using Nat.mod_eq_of_lt hpc
    simp only [List.length_nil, VM_read_operands, store_operands, Nat.add_zero, this]
  | cons w ws ih =>
    intro i self operands hbuf hpc hall
    have h0 := hall 0 (by simp)
    have hpc0 : (self.pc + 2 * 0) % WORD_RANGE = self.pc := by
      simpa using Nat.mod_eq_of_lt hpc
    rw [hpc0] at h0
    simp only [List.getElem_cons_zero] at h0
    have hlt : ¬ 32776 ≤ w := by omega
    have hshift : ∀ j, (((self.pc + 2) % WORD_RANGE) + 2 * j) % WORD_RANGE
        = (self.pc + 2 * (j + 1)) % WORD_RANGE := by
      intro j; unfold WORD_RANGE; omega
    have hrec := ih (i + 1) { self with pc := (self.pc + 2) % WORD_RANGE } (operands.set i w)
      hbuf (Nat.mod_lt _ (by decide))
      (by
        intro j hj
        have := hall (j + 1) (by simpa using hj)
        simpa [hshift] using this)
    simp only [List.length_cons, VM_read_operands, VM_read_word, hbuf, h0.1, ok_bind, ge_iff_le,
      hlt, if_false, hrec, store_operands]
    have hpcs : ((self.pc + 2) % WORD_RANGE + 2 * ws.length) % WORD_RANGE
        = (self.pc + 2 * (ws.length + 1)) % WORD_RANGE := hshift _
    simp only [hpcs, Nat.add_assoc, Nat.add_comm 1]

/-- Decoding of one instruction whose operand words `ws` are all legal: the
cycle is the handler applied to the state after the reads. -/
theorem cycle_decode (self : vm_state_t) (bytes : List Nat) (opcode_idx : Nat)
    (opcode : opcode_t) (handler : vm_state_t → List Nat → vm_result vm_state_t)
    (ws : List Nat)
    (hbuf : self.buffer.buffer = some bytes)
    (hop : word_at bytes self.pc = some opcode_idx)
    (hknown : OPCODE_LIST[opcode_idx]? = some opcode)
    (hh : opcode_fn_table[opcode_idx]? = some handler)
    (hlen : ws.length = opcode.n_params)
    (hws : ∀ j (hj : j < ws.length),
      word_at bytes (operand_offset self.pc j) = some ws[j] ∧ ws[j] < 32776) :
    VM_execute_cycle self
      = handler { self with pc := (self.pc + 2 + 2 * opcode.n_params) % WORD_RANGE }
          (store_operands [0, 0, 0] 0 ws) := by
  have hshift : ∀ j, (((self.pc + 2) % WORD_RANGE) + 2 * j) % WORD_RANGE
      = operand_offset self.pc j := by
    intro j; unfold operand_offset WORD_RANGE; omega
  have hloop := read_operands_ok bytes ws 0 { self with pc := (self.pc + 2) % WORD_RANGE }
    [0, 0, 0] hbuf (Nat.mod_lt _ (by decide))
    (by intro j hj; simpa [hshift] using hws j hj)
  rw [hlen] at hloop
  have hpcs : ((self.pc + 2) % WORD_RANGE + 2 * opcode.n_params) % WORD_RANGE
      = (self.pc + 2 + 2 * opcode.n_params) % WORD_RANGE := by
    unfold WORD_RANGE; omega
  simp only [VM_execute_cycle, VM_read_word, hbuf, hop, ok_bind, hknown, hh, hloop,
    Nat.zero_add, ne_eq, not_true_eq_false, if_false, hpcs]

theorem word_at_of_getElem? (bytes : List Nat) (offset lo hi : Nat)
    (hlo : bytes[offset]? = some lo) (hhi : bytes[offset + 1]? = some hi) :
    word_at bytes offset = some (lo + 256 * hi) := by
  simp only [word_at, hlo, hhi]

theorem wmem_image_head (j : Nat) (hj : j < 6) :
    wmem_image[j]? = (image_bytes [16, 16384, 7])[j]? := by
  unfold wmem_image
  exact List.getElem?_append_left (by simpa [image_bytes] using hj)

theorem wmem_image_tail (j : Nat) (h6 : 6 ≤ j) (hj : j < 32770) : wmem_image[j]? = some 0 := by
  have h1 : (image_bytes [16, 16384, 7]).length = 6 := rfl
  unfold wmem_image
  rw [List.getElem?_append_right (by rw [h1]; exact h6), h1]
  exact List.getElem?_replicate_of_lt (by omega)

theorem wmem_image_words :
    word_at wmem_image 0 = some 16 ∧ word_at wmem_image 2 = some 16384 ∧
    word_at wmem_image 4 = some 7 ∧ word_at wmem_image (2 * 16384) = some 0 :=
  ⟨word_at_of_getElem? wmem_image 0 16 0 (wmem_image_head 0 (by decide))
      (wmem_image_head 1 (by decide)),
   word_at_of_getElem? wmem_image 2 0 64 (wmem_image_head 2 (by decide))
      (wmem_image_head 3 (by decide)),
   word_at_of_getElem? wmem_image 4 7 0 (wmem_image_head 4 (by decide))
      (wmem_image_head 5 (by decide)),
   word_at_of_getElem? wmem_image (2 * 16384) 0 0
      (wmem_image_tail (2 * 16384) (by decide) (by decide))
      (wmem_image_tail (2 * 16384 + 1) (by decide) (by decide))⟩

theorem execute_unknown_opcode (self : vm_state_t) (bytes : List Nat) (w fuel : Nat)
    (hbuf : self.buffer.buffer = some bytes) (hrun : self.pc < self.buffer.size)
    (hw : word_at bytes self.pc = some w) (h22 : 22 ≤ w) :
    VM_execute (fuel + 1) self
      = .exited (.fatal .misaligned_jmp) { self with pc := (self.pc + 2) % WORD_RANGE } := by
  have hnone : OPCODE_LIST[w]? = none :=
    List.getElem?_eq_none (by simpa [OPCODE_LIST] using h22)
  simp only [VM_execute, hrun, if_true, VM_execute_cycle, VM_read_word, hbuf, hw, ok_bind, hnone]
  rfl

theorem word_at_isSome_iff (bytes : List Nat) (offset : Nat) :
    (∃ w, word_at bytes offset = some w) ↔ offset + 1 < bytes.length := by
  unfold word_at
  constructor
  · rintro ⟨w, hw⟩
    split at hw
    · rename_i lo hi hlo hhi
      exact (List.getElem?_eq_some.mp hhi).1
    · cases hw
  · intro h
    have h0 : offset < bytes.length := by omega
    rw [List.getElem?_eq_getElem h0, List.getElem?_eq_getElem h]
    exact ⟨_, rfl⟩

theorem word_at_set_word_at (bytes bytes' : List Nat) (offset v : Nat)
    (hset : set_word_at bytes offset v = some bytes') (hv : v < WORD_RANGE) :
    word_at bytes' offset = some v := by
  unfold set_word_at at hset
  split at hset
  · rename_i hlen
    injection hset with hset
    subst hset
    have h0 : offset < bytes.length := by omega
    have hne : offset + 1 ≠ offset := by omega
    unfold word_at
    rw [List.getElem?_set_ne hne, List.getElem?_set_self h0,
      List.getElem?_set_self (by simpa using hlen)]
    simp only [Option.some.injEq]
    unfold WORD_RANGE at hv
    omega
  · cases hset

/-- Storing through a pointer that designates an object succeeds, and the
object then holds the stored word. -/
theorem assign_read (self : vm_state_t) (p : vm_lvalue) (v old : Nat)
    (hold : vm_lvalue.read self p = some old) :
    ∃ s', vm_lvalue.assign self p v = .ok s' ∧
      vm_lvalue.read s' p = some (v % WORD_RANGE) := by
  cases p with
  | register idx =>
    simp only [vm_lvalue.read] at hold
    have hlt : idx < self.registers.length := (List.getElem?_eq_some.mp hold).1
    refine ⟨{ self with registers := self.registers.set idx (v % WORD_RANGE) }, ?_, ?_⟩
    · simp [vm_lvalue.assign, hlt]
    · simp [vm_lvalue.read, List.getElem?_set_self hlt]
  | memory offset =>
    simp only [vm_lvalue.read] at hold
    cases hb : self.buffer.buffer with
    | none => simp [hb] at hold
    | some bytes =>
      simp only [hb] at hold
      have hlen : offset + 1 < bytes.length := (word_at_isSome_iff bytes offset).mp ⟨old, hold⟩
      have hset : set_word_at bytes offset (v % WORD_RANGE)
          = some ((bytes.set offset (v % WORD_RANGE % 256)).set (offset + 1)
              (v % WORD_RANGE / 256 % 256)) := by
        simp [set_word_at, hlen]
      refine ⟨_, by simp only [vm_lvalue.assign, hb, hset]; rfl, ?_⟩
      simp only [vm_lvalue.read]
      exact word_at_set_word_at bytes _ offset (v % WORD_RANGE) hset
        (Nat.mod_lt _ (by decide))

theorem execute_succ_ok (fuel : Nat) (self next : vm_state_t)
    (hrun : self.pc < self.buffer.size) (hcycle : VM_execute_cycle self = .ok next) :
    VM_execute (fuel + 1) self = VM_execute fuel next := by
  simp only [VM_execute, hrun, if_true, hcycle]

theorem execute_succ_exit (fuel : Nat) (self last : vm_state_t) (e : vm_exit)
    (hrun : self.pc < self.buffer.size) (hcycle : VM_execute_cycle self = .error (e, last)) :
    VM_execute (fuel + 1) self = .exited e last := by
  simp only [VM_execute, hrun, if_true, hcycle]

theorem execute_done (fuel : Nat) (self : vm_state_t) (hend : ¬ self.pc < self.buffer.size) :
    VM_execute fuel self = .returned true self := by
  cases fuel <;> simp only [VM_execute, hend, if_false]

theorem operands_at_spec (bytes : List Nat) (pc : Nat) :
    ∀ (ws : List Nat) (j : Nat), operands_at bytes pc j ws = true →
      ∀ k (hk : k < ws.length),
        word_at bytes (operand_offset pc (j + k)) = some ws[k] ∧ ws[k] < 32776 := by
  intro ws
  induction ws with
  | nil => intro j _ k hk; cases hk
  | cons w ws ih =>
    intro j h k hk
    simp only [operands_at, Bool.and_eq_true, beq_iff_eq, decide_eq_true_eq] at h
    cases k with
    | zero => exact ⟨by simpa using h.1.1, by simpa using h.1.2⟩
    | succ k =>
      have := ih (j + 1) h.2 k (by simpa using hk)
      have hjk : j + (k + 1) = j + 1 + k := by omega
      simpa [hjk] using this

/-- Evaluation of one cycle on a concrete instruction. -/
theorem cycle_eval (self : vm_state_t) (bytes : List Nat) (opcode_idx : Nat)
    (opcode : opcode_t) (handler : vm_state_t → List Nat → vm_result vm_state_t)
    (ws : List Nat) (result : vm_result vm_state_t)
    (hbuf : self.buffer.buffer = some bytes)
    (hop : word_at bytes self.pc = some opcode_idx)
    (hknown : OPCODE_LIST[opcode_idx]? = some opcode)
    (hh : opcode_fn_table[opcode_idx]? = some handler)
    (hlen : ws.length = opcode.n_params)
    (hws : operands_at bytes self.pc 0 ws = true)
    (hhandler : handler { self with pc := (self.pc + 2 + 2 * opcode.n_params) % WORD_RANGE }
      (store_operands [0, 0, 0] 0 ws) = result) :
    VM_execute_cycle self = result := by
  rw [cycle_decode self bytes opcode_idx opcode handler ws hbuf hop hknown hh hlen
    (by
      intro j hj
      have := operands_at_spec bytes self.pc ws 0 hws j hj
      simpa using this), hhandler]

theorem handler_exits_ok {α : Type} (a : α) : handler_exits (.ok a : vm_result α) := by
  intro e s h; cases h

theorem handler_exits_undefined {α : Type} (self : vm_state_t) :
    handler_exits (VM_undefined self : vm_result α) := by
  intro e s h
  simp only [VM_undefined, Except.error.injEq, Prod.mk.injEq] at h
  rw [← h.1]; rfl

theorem handler_exits_error {α : Type} (msg : vm_error_msg) (self : vm_state_t)
    (hmsg : handler_exit (.fatal msg) = true) :
    handler_exits (VM_error msg self : vm_result α) := by
  intro e s h
  simp only [VM_error, Except.error.injEq, Prod.mk.injEq] at h
  rw [← h.1]; exact hmsg

theorem handler_exits_seq {α β : Type} (r : vm_result α) (k : α → vm_result β)
    (hr : handler_exits r) (hk : ∀ a, handler_exits (k a)) :
    handler_exits (r >>= k) := by
  cases r with
  | error x =>
    intro e s h
    apply hr e s
    simpa using h
  | ok a => exact hk a

theorem interpret_value_exits (self : vm_state_t) (v : Nat) :
    handler_exits (VM_interpret_value self v) := by
  unfold VM_interpret_value
  split
  · split
    · exact handler_exits_ok _
    · exact handler_exits_undefined _
  · exact handler_exits_ok _

theorem assign_exits (self : vm_state_t) (p : vm_lvalue) (v : Nat) :
    handler_exits (vm_lvalue.assign self p v) := by
  unfold vm_lvalue.assign
  split
  · split
    · exact handler_exits_ok _
    · exact handler_exits_undefined _
  · split
    · exact handler_exits_undefined _
    · split
      · exact handler_exits_undefined _
      · exact handler_exits_ok _

theorem get_stack_exits (self : vm_state_t) : handler_exits (VM_get_stack self) := by
  unfold VM_get_stack
  split
  · exact handler_exits_error _ _ (by decide)
  · exact handler_exits_ok _

theorem stack_push_exits (self : vm_state_t) (v : Nat) :
    handler_exits (VM_stack_push self v) := by
  unfold VM_stack_push
  apply handler_exits_seq _ _ (get_stack_exits self)
  intro stack
  dsimp only
  split
  · exact handler_exits_undefined _
  · exact handler_exits_error _ _ (by decide)
  · split
    · exact handler_exits_undefined _
    · split
      · exact handler_exits_ok _
      · exact handler_exits_undefined _

theorem stack_pop_exits (self : vm_state_t) : handler_exits (VM_stack_pop self) := by
  unfold VM_stack_pop
  apply handler_exits_seq _ _ (get_stack_exits self)
  intro stack
  dsimp only
  split
  · exact handler_exits_error _ _ (by decide)
  · split
    · exact handler_exits_undefined _
    · split
      · exact handler_exits_undefined _
      · split
        · exact handler_exits_undefined _
        · exact handler_exits_ok _

theorem stack_isempty_exits (self : vm_state_t) : handler_exits (VM_stack_isempty self) := by
  unfold VM_stack_isempty
  exact handler_exits_seq _ _ (get_stack_exits self) (fun _ => handler_exits_ok _)

theorem read_word_at_exits (self : vm_state_t) (idx : Nat) :
    handler_exits (VM_read_word_at self idx) := by
  unfold VM_read_word_at
  split
  · exact handler_exits_undefined _
  · split
    · exact handler_exits_undefined _
    · exact handler_exits_ok _

theorem read_word_exits (self : vm_state_t) : handler_exits (VM_read_word self) := by
  unfold VM_read_word
  split
  · exact handler_exits_undefined _
  · split
    · exact handler_exits_undefined _
    · exact handler_exits_ok _

theorem coredump_loop_exits :
    ∀ (fuel i : Nat) (self : vm_state_t), handler_exits (print_coredump_loop fuel i self) := by
  intro fuel
  induction fuel with
  | zero => intro i self; exact handler_exits_ok _
  | succ n ih =>
    intro i self
    unfold print_coredump_loop
    split
    · exact handler_exits_seq _ _ (stack_pop_exits self) (fun a => ih _ _)
    · exact handler_exits_ok _

theorem jmp_exits (self : vm_state_t) (operands : List Nat) :
    handler_exits (VM_opcode_jmp self operands) := by
  unfold VM_opcode_jmp
  exact handler_exits_seq _ _ (interpret_value_exits _ _) (fun _ => handler_exits_ok _)

theorem table_handler_exits (idx : Nat)
    (handler : vm_state_t → List Nat → vm_result vm_state_t)
    (hh : opcode_fn_table[idx]? = some handler) (self : vm_state_t) (operands : List Nat) :
    handler_exits (handler self operands) := by
  have hmem : handler ∈ opcode_fn_table := List.getElem?_mem hh
  have hv := fun v => interpret_value_exits self v
  have ha := fun s p v => assign_exits s p v
  simp only [opcode_fn_table, List.mem_cons, List.mem_singleton, List.not_mem_nil, or_false] at hmem
  rcases hmem with h | h | h | h | h | h | h | h | h | h | h | h | h | h | h | h | h | h | h | h | h | h
    <;> subst h
  · exact handler_exits_seq _ _ (coredump_loop_exits _ _ _)
      (fun _ => handler_exits_error _ _ (by decide))
  · exact handler_exits_seq _ _ (hv _) (fun _ => ha _ _ _)
  · exact handler_exits_seq _ _ (hv _) (fun _ => stack_push_exits _ _)
  · refine handler_exits_seq _ _ (stack_isempty_exits _) (fun empty => ?_)
    cases empty
    · exact handler_exits_seq _ _ (stack_pop_exits _) (fun _ => ha _ _ _)
    · exact handler_exits_error _ _ (by decide)
  · exact handler_exits_seq _ _ (hv _) (fun _ => handler_exits_seq _ _ (hv _) (fun _ => ha _ _ _))
  · exact handler_exits_seq _ _ (hv _) (fun _ => handler_exits_seq _ _ (hv _) (fun _ => ha _ _ _))
  · exact jmp_exits _ _
  · refine handler_exits_seq _ _ (hv _) (fun v => ?_)
    by_cases h0 : v ≠ 0
    · simpa [h0] using jmp_exits _ _
    · simpa [h0] using handler_exits_ok self
  · refine handler_exits_seq _ _ (hv _) (fun v => ?_)
    by_cases h0 : v = 0
    · simpa [h0] using jmp_exits _ _
    · simpa [h0] using handler_exits_ok self
  · exact handler_exits_seq _ _ (hv _) (fun _ => handler_exits_seq _ _ (hv _) (fun _ => ha _ _ _))
  · refine handler_exits_seq _ _ (hv _) (fun vb => handler_exits_seq _ _ (hv _) (fun vc => ?_))
    by_cases h0 : vb * vc > INT_MAX
    · simpa [h0] using (handler_exits_undefined self : handler_exits (VM_undefined self : vm_result vm_state_t))
    · simpa [h0] using ha _ _ _
  · refine handler_exits_seq _ _ (hv _) (fun vb => handler_exits_seq _ _ (hv _) (fun vc => ?_))
    by_cases h0 : vc = 0
    · simpa [h0] using (handler_exits_undefined self : handler_exits (VM_undefined self : vm_result vm_state_t))
    · simpa [h0] using ha _ _ _
  · exact handler_exits_seq _ _ (hv _) (fun _ => handler_exits_seq _ _ (hv _) (fun _ => ha _ _ _))
  · exact handler_exits_seq _ _ (hv _) (fun _ => handler_exits_seq _ _ (hv _) (fun _ => ha _ _ _))
  · exact handler_exits_seq _ _ (hv _) (fun _ => ha _ _ _)
  · exact handler_exits_seq _ _ (hv _)
      (fun _ => handler_exits_seq _ _ (read_word_at_exits _ _) (fun _ => ha _ _ _))
  · exact handler_exits_seq _ _ (hv _) (fun _ => handler_exits_seq _ _ (hv _) (fun _ => ha _ _ _))
  · exact handler_exits_seq _ _ (stack_push_exits _ _) (fun _ => jmp_exits _ _)
  · exact handler_exits_seq _ _ (stack_pop_exits _) (fun _ => handler_exits_ok _)
  · exact handler_exits_ok _
  · unfold VM_opcode_in
    split
    · exact ha _ _ _
    · exact ha _ _ _
  · exact handler_exits_ok _


theorem read_operands_count :
    ∀ (remaining i : Nat) (self : vm_state_t) (operands : List Nat)
      (result : List Nat × Nat × vm_state_t),
      VM_read_operands self operands i remaining = .ok result → result.2.1 = i + remaining := by
  intro remaining
  induction remaining with
  | zero =>
    intro i self operands result h
    simp only [VM_read_operands, Except.ok.injEq] at h
    rw [← h]; rfl
  | succ r ih =>
    intro i self operands result h
    unfold VM_read_operands at h
    cases hread : VM_read_word self with
    | error x => rw [hread] at h; simp at h
    | ok read =>
      rw [hread, ok_bind] at h
      by_cases hov : read.1 ≥ 32776
      · simp [hov, VM_error] at h
      · simp only [hov, if_false] at h
        have := ih (i + 1) read.2 (operands.set i read.1) result h
        omega

theorem read_operands_not_incorrect :
    ∀ (remaining i : Nat) (self : vm_state_t) (operands : List Nat) (last : vm_state_t),
      VM_read_operands self operands i remaining ≠ VM_error .incorrect_number last := by
  intro remaining
  induction remaining with
  | zero =>
    intro i self operands last h
    simp [VM_read_operands, VM_error] at h
  | succ r ih =>
    intro i self operands last h
    unfold VM_read_operands at h
    cases hread : VM_read_word self with
    | error x =>
      rw [hread, error_bind] at h
      have hx0 : x = (vm_exit.fatal .incorrect_number, last) := by simpa [VM_error] using h
      have hx := read_word_exits self (.fatal .incorrect_number) last (by rw [hread, hx0])
      simp [handler_exit] at hx
    | ok read =>
      rw [hread, ok_bind] at h
      by_cases hov : read.1 ≥ 32776
      · simp [hov, VM_error] at h
      · simp only [hov, if_false] at h
        exact ih _ _ _ _ h

/-- The error `opcode received incorrect number of opcodes` is never raised. -/
theorem cycle_never_incorrect_number (self last : vm_state_t) :
    VM_execute_cycle self ≠ VM_error .incorrect_number last := by
  intro h
  unfold VM_execute_cycle at h
  cases hread : VM_read_word self with
  | error x =>
    rw [hread, error_bind] at h
    have hx0 : x = (vm_exit.fatal .incorrect_number, last) := by simpa [VM_error] using h
    have hx := read_word_exits self (.fatal .incorrect_number) last (by rw [hread, hx0])
    simp [handler_exit] at hx
  | ok fetched =>
    rw [hread, ok_bind] at h
    split at h
    · rename_i opcode handler hop hh
      cases hdec : VM_read_operands fetched.2 [0, 0, 0] 0 opcode.n_params with
      | error x =>
        rw [hdec, error_bind] at h
        have hx0 : x = (vm_exit.fatal .incorrect_number, last) := by simpa [VM_error] using h
        exact read_operands_not_incorrect _ _ _ _ last (by rw [hdec, hx0]; rfl)
      | ok decoded =>
        rw [hdec, ok_bind] at h
        have hcount := read_operands_count _ _ _ _ _ hdec
        have hi : ¬ decoded.2.1 ≠ opcode.n_params := by omega
        simp only [hi, if_false] at h
        have hx := table_handler_exits _ handler hh decoded.2.2 decoded.1
          (.fatal .incorrect_number) last (by rw [h]; rfl)
        simp [handler_exit] at hx
    · simp [VM_error] at h

theorem initialize_ok (state : vm_state_t) :
    VM_initialize state true
      = (true, { state with
          buffer := { buffer := none, size := state.buffer.size },
          stack := { block := some (List.replicate N_STACK_SLOTS 0), head := 0, size := 0,
                     capacity := N_STACK_SLOTS },
          registers := List.replicate N_REGISTERS 0 }) := by
  rfl

theorem loaded_from_eq (state : vm_state_t) (bytes : List Nat) (n : Nat)
    (hn : n ≤ VM_MAX_LOADSIZE) :
    loaded_from state bytes n
      = { state with
          buffer := { buffer := some bytes, size := n },
          stack := { block := some (List.replicate N_STACK_SLOTS 0), head := 0, size := 0,
                     capacity := N_STACK_SLOTS },
          registers := List.replicate N_REGISTERS 0 } := by
  have hle : ¬ n > VM_MAX_LOADSIZE := by omega
  simp [loaded_from, VM_load, hle, initialize_ok]

theorem word_at_image_bytes_zero (w : Nat) (ws : List Nat) (hw : w < WORD_RANGE) :
    word_at (image_bytes (w :: ws)) 0 = some w := by
  simp only [image_bytes, word_at, List.getElem?_cons_zero, List.getElem?_cons_succ,
    Option.some.injEq]
  unfold WORD_RANGE at hw
  omega

theorem word_at_image_bytes_succ (w : Nat) (ws : List Nat) (offset : Nat) :
    word_at (image_bytes (w :: ws)) (offset + 2) = word_at (image_bytes ws) offset := by
  simp only [image_bytes, word_at, List.getElem?_cons_succ]

theorem wrap_image_words :
    word_at wrap_image 0 = some 6 ∧ word_at wrap_image 2 = some 32767 ∧
    word_at wrap_image 65534 = some 21 ∧ wrap_image.length = 65536 := by
  have h1 : (image_bytes [6, 32767]).length = 4 := rfl
  have hhead : ∀ j, j < 4 → wrap_image[j]? = (image_bytes [6, 32767])[j]? := by
    intro j hj
    unfold wrap_image
    exact List.getElem?_append_left (by rw [h1]; exact hj)
  have htail : ∀ j, j < 2 → wrap_image[65534 + j]? = (image_bytes [21])[j]? := by
    intro j hj
    unfold wrap_image
    rw [List.getElem?_append_right (by rw [h1]; omega), h1,
      List.getElem?_append_right (by rw [List.length_replicate]; omega), List.length_replicate]
    have hidx : 65534 + j - 4 - 65530 = j := by omega
    rw [hidx]
  have hlen : wrap_image.length = 65536 := by
    unfold wrap_image
    rw [List.length_append, List.length_append, List.length_replicate, h1]
    rfl
  exact ⟨word_at_of_getElem? wrap_image 0 6 0 (hhead 0 (by decide)) (hhead 1 (by decide)),
    word_at_of_getElem? wrap_image 2 255 127 (hhead 2 (by decide)) (hhead 3 (by decide)),
    word_at_of_getElem? wrap_image 65534 21 0 (htail 0 (by decide)) (htail 1 (by decide)),
    hlen⟩

theorem interpret_value_legal (self : vm_state_t) (b : Nat) (hb : b < 32776)
    (hlen : self.registers.length = N_REGISTERS) :
    ∃ vb, VM_interpret_value self b = .ok vb := by
  unfold VM_interpret_value
  by_cases h : b ≥ 32768
  · have hlt : b - 32768 < self.registers.length := by
      rw [hlen]; unfold N_REGISTERS; omega
    exact ⟨self.registers[b - 32768], by simp [h, List.getElem?_eq_getElem hlt]⟩
  · exact ⟨b, by simp [h]⟩

theorem assign_register (self : vm_state_t) (a v : Nat) (ha1 : 32768 ≤ a) (ha2 : a ≤ 32775)
    (hlen : self.registers.length = N_REGISTERS) :
    vm_lvalue.assign self (VM_interpret_lvalue a) v
      = .ok { self with registers := self.registers.set (a - 32768) (v % WORD_RANGE) } := by
  have hlt : a - 32768 < self.registers.length := by
    rw [hlen]; unfold N_REGISTERS; omega
  have hge : a ≥ 32768 := ha1
  simp [VM_interpret_lvalue, hge, vm_lvalue.assign, hlt]

theorem jmp_eq (self : vm_state_t) (b vb : Nat) (rest : List Nat)
    (hvb : VM_interpret_value self b = .ok vb) (hb : vb ≤ 32767) :
    VM_opcode_jmp self (b :: rest) = .ok { self with pc := 2 * vb } := by
  have : vb * 2 % WORD_RANGE = 2 * vb := by unfold WORD_RANGE; omega
  simp only [VM_opcode_jmp, List.getD_cons_zero, hvb, ok_bind, pure_eq_ok, this]

/-- Each handler of `register_target_opcodes`, on a register target and legal
source operands, either returns the state with only that register replaced or
ends undefined with the state untouched; the latter only for MULT with a
product beyond `INT_MAX`, MOD with a zero right operand and RMEM with an
address outside the buffer. -/
theorem register_target_result (idx : Nat)
    (handler : vm_state_t → List Nat → vm_result vm_state_t)
    (hidx : idx ∈ register_target_opcodes) (hh : opcode_fn_table[idx]? = some handler)
    (self : vm_state_t) (a b c : Nat)
    (ha1 : 32768 ≤ a) (ha2 : a ≤ 32775) (hb : b < 32776) (hc : c < 32776)
    (hlen : self.registers.length = N_REGISTERS) :
    (∃ v, handler self [a, b, c]
      = .ok { self with registers := self.registers.set (a - 32768) v }) ∨
    (handler self [a, b, c] = VM_undefined self ∧
      ((idx = 10 ∧ ∃ vb vc, VM_interpret_value self b = .ok vb ∧
          VM_interpret_value self c = .ok vc ∧ vb * vc > INT_MAX) ∨
       (idx = 11 ∧ VM_interpret_value self c = .ok 0) ∨
       (idx = 15 ∧ ∃ vb, VM_interpret_value self b = .ok vb ∧
          VM_read_word_at self vb = VM_undefined self))) := by
  obtain ⟨vb, hvb⟩ := interpret_value_legal self b hb hlen
  obtain ⟨vc, hvc⟩ := interpret_value_legal self c hc hlen
  have hassign := fun v => assign_register self a v ha1 ha2 hlen
  simp only [register_target_opcodes, List.mem_cons, List.mem_singleton, List.not_mem_nil,
    or_false] at hidx
  rcases hidx with h | h | h | h | h | h | h | h | h | h <;> subst h <;>
    simp only [opcode_fn_table, List.getElem?_cons_succ, List.getElem?_cons_zero,
      Option.some.injEq] at hh <;> subst hh
  · exact Or.inl ⟨vb % WORD_RANGE, by
      simp only [VM_opcode_set, List.getD_cons_succ, List.getD_cons_zero, hvb, ok_bind, hassign]⟩
  · exact Or.inl ⟨(if vb = vc then 1 else 0) % WORD_RANGE, by
      simp only [VM_opcode_eq, List.getD_cons_succ, List.getD_cons_zero, hvb, hvc, ok_bind,
        hassign]⟩
  · exact Or.inl ⟨(if vb > vc then 1 else 0) % WORD_RANGE, by
      simp only [VM_opcode_gt, List.getD_cons_succ, List.getD_cons_zero, hvb, hvc, ok_bind,
        hassign]⟩
  · exact Or.inl ⟨(vb + vc) % 32768 % WORD_RANGE, by
      simp only [VM_opcode_add, List.getD_cons_succ, List.getD_cons_zero, hvb, hvc, ok_bind,
        hassign]⟩
  · by_cases hmul : vb * vc > INT_MAX
    · exact Or.inr ⟨by
        simp only [VM_opcode_mult, List.getD_cons_succ, List.getD_cons_zero, hvb, hvc, ok_bind,
          hmul, if_true], Or.inl ⟨rfl, vb, vc, hvb, hvc, hmul⟩⟩
    · exact Or.inl ⟨(vb * vc) % 32768 % WORD_RANGE, by
        simp only [VM_opcode_mult, List.getD_cons_succ, List.getD_cons_zero, hvb, hvc, ok_bind,
          hmul, if_false, hassign]⟩
  · by_cases hz : vc = 0
    · exact Or.inr ⟨by
        simp only [VM_opcode_mod, List.getD_cons_succ, List.getD_cons_zero, hvb, hvc, ok_bind,
          hz, if_true], Or.inr (Or.inl ⟨rfl, by rw [hvc, hz]⟩)⟩
    · exact Or.inl ⟨(vb % vc) % WORD_RANGE, by
        simp only [VM_opcode_mod, List.getD_cons_succ, List.getD_cons_zero, hvb, hvc, ok_bind,
          hz, if_false, hassign]⟩
  · exact Or.inl ⟨(vb &&& vc) % WORD_RANGE, by
      simp only [VM_opcode_and_, List.getD_cons_succ, List.getD_cons_zero, hvb, hvc, ok_bind,
        hassign]⟩
  · exact Or.inl ⟨(vb ||| vc) % WORD_RANGE, by
      simp only [VM_opcode_or_, List.getD_cons_succ, List.getD_cons_zero, hvb, hvc, ok_bind,
        hassign]⟩
  · exact Or.inl ⟨((4294967295 - vb) &&& 0x7fff) % WORD_RANGE, by
      simp only [VM_opcode_not_, List.getD_cons_succ, List.getD_cons_zero, hvb, ok_bind,
        hassign]⟩
  · cases hr : VM_read_word_at self vb with
    | error x =>
      have hx : VM_read_word_at self vb = VM_undefined self := by
        unfold VM_read_word_at
        unfold VM_read_word_at at hr
        split
        · rfl
        · rename_i bytes hbytes
          rw [hbytes] at hr
          split
          · rfl
          · rename_i w hw
            simp [hw] at hr
      exact Or.inr ⟨by
        simp only [VM_opcode_rmem, List.getD_cons_succ, List.getD_cons_zero, hvb, ok_bind, hx,
          VM_undefined_bind], Or.inr (Or.inr ⟨rfl, vb, hvb, hx⟩)⟩
    | ok w =>
      exact Or.inl ⟨w % WORD_RANGE, by
        simp only [VM_opcode_rmem, List.getD_cons_succ, List.getD_cons_zero, hvb, ok_bind, hr,
          hassign]⟩

theorem stack_push_within_capacity (self : vm_state_t) (cells : List Nat) (v : Nat)
    (hblock : self.stack.block = some cells) (hhead : self.stack.head = self.stack.size)
    (hroom : self.stack.size < self.stack.capacity)
    (hlen : self.stack.capacity ≤ cells.length) (hcap : self.stack.capacity < SIZE_RANGE) :
    VM_stack_push self v
      = .ok { self with stack :=
          { block := some (cells.set self.stack.size v), head := self.stack.size + 1,
            size := self.stack.size + 1, capacity := self.stack.capacity } } := by
  have hne : ¬ self.stack.size = self.stack.capacity := by omega
  have hmod : (self.stack.size + 1) % SIZE_RANGE = self.stack.size + 1 :=
    Nat.mod_eq_of_lt (by omega)
  have hlt : self.stack.size < cells.length := by omega
  simp only [VM_stack_push, VM_get_stack, hblock, ok_bind, hne, if_false, hhead, hlt, if_true,
    pure_eq_ok, hmod]

theorem stack_pop_nonempty (self : vm_state_t) (cells : List Nat) (w : Nat)
    (hblock : self.stack.block = some cells) (hhead : self.stack.head = self.stack.size)
    (hpos : 0 < self.stack.size) (hsize : self.stack.size < SIZE_RANGE)
    (htop : cells[self.stack.size - 1]? = some w) :
    VM_stack_pop self
      = .ok (w, { self with stack :=
          { block := some cells, head := self.stack.size - 1,
            size := self.stack.size - 1, capacity := self.stack.capacity } }) := by
  have hne : ¬ self.stack.size = 0 := by omega
  have hmod : (self.stack.size + SIZE_RANGE - 1) % SIZE_RANGE = self.stack.size - 1 := by
    have h1 : self.stack.size + SIZE_RANGE - 1 = (self.stack.size - 1) + SIZE_RANGE := by omega
    rw [h1, Nat.add_mod_right]
    exact Nat.mod_eq_of_lt (by omega)
  have hne2 : ¬ self.stack.head = 0 := by omega
  simp only [VM_stack_pop, VM_get_stack, hblock, ok_bind, hne, if_false, hne2, hhead, htop,
    pure_eq_ok, hmod]

theorem stack_pop_empty (self : vm_state_t) (cells : List Nat)
    (hblock : self.stack.block = some cells) (hempty : self.stack.size = 0) :
    VM_stack_pop self
      = VM_error .pop_from_empty_stack { self with stack :=
          { self.stack with size := SIZE_RANGE - 1 } } := by
  have hmod : (0 + SIZE_RANGE - 1) % SIZE_RANGE = SIZE_RANGE - 1 := by decide
  simp only [VM_stack_pop, VM_get_stack, hblock, ok_bind, hempty, if_true, hmod]

theorem pop_all_succ_last :
    ∀ (k : Nat) (self : vm_state_t),
      pop_all self (k + 1)
        = (pop_all self k >>= fun popped =>
            VM_stack_pop popped.2 >>= fun last =>
              (.ok (popped.1 ++ [last.1], last.2) : vm_result (List Nat × vm_state_t))) := by
  intro k
  induction k with
  | zero =>
    intro self
    simp only [pop_all, ok_bind, pure_eq_ok, List.nil_append]
  | succ k ih =>
    intro self
    rw [pop_all]
    cases hpop : VM_stack_pop self with
    | error e => simp only [pop_all, hpop, error_bind]
    | ok first =>
      simp only [ok_bind]
      rw [ih first.2]
      conv_rhs => rw [pop_all]
      simp only [hpop, ok_bind]
      cases pop_all first.2 k with
      | error e => rfl
      | ok rest =>
        simp only [ok_bind, pure_eq_ok]
        cases VM_stack_pop rest.2 <;> rfl

/-- Within the capacity the stack is last-in-first-out: pushes that fit are
popped back in reverse order, and the stack has its former size and former
content below `head` again; nothing else changes. -/
theorem stack_lifo_within_capacity :
    ∀ (ps : List Nat) (self : vm_state_t) (cells : List Nat),
      self.stack.block = some cells → self.stack.head = self.stack.size →
      self.stack.size + ps.length ≤ self.stack.capacity →
      self.stack.capacity ≤ cells.length → self.stack.capacity < SIZE_RANGE →
      ∃ pushed cells',
        push_all self ps = .ok pushed ∧
        pop_all pushed ps.length
          = .ok (ps.reverse, { self with stack := { self.stack with block := some cells' } }) ∧
        cells'.length = cells.length ∧
        cells'.take self.stack.size = cells.take self.stack.size := by
  intro ps
  induction ps with
  | nil =>
    intro self cells hblock _ _ _ _
    refine ⟨self, cells, rfl, ?_, rfl, rfl⟩
    simp only [List.length_nil, pop_all, List.reverse_nil, ← hblock]
  | cons p ps ih =>
    intro self cells hblock hhead hfit hlen hcap
    simp only [List.length_cons] at hfit
    have hpush := stack_push_within_capacity self cells p hblock hhead (by omega) hlen hcap
    obtain ⟨pushed, cells1, hpushed, hpopped, hlen1, htake1⟩ :=
      ih { self with stack :=
          { block := some (cells.set self.stack.size p), head := self.stack.size + 1,
            size := self.stack.size + 1, capacity := self.stack.capacity } }
        (cells.set self.stack.size p) rfl rfl (by simp only; omega)
        (by simp only [List.length_set]; exact hlen) hcap
    simp only at hpopped htake1
    have hidx : self.stack.size < cells.length := by omega
    have htop : cells1[self.stack.size + 1 - 1]? = some p := by
      have h1 : (cells1.take (self.stack.size + 1))[self.stack.size]?
          = ((cells.set self.stack.size p).take (self.stack.size + 1))[self.stack.size]? := by
        rw [htake1]
      rw [List.getElem?_take_of_succ, List.getElem?_take_of_succ,
        List.getElem?_set_self hidx] at h1
      simpa using h1
    have hlast := stack_pop_nonempty
      { self with stack :=
          { block := some cells1, head := self.stack.size + 1,
            size := self.stack.size + 1, capacity := self.stack.capacity } }
      cells1 p rfl rfl (by simp only; omega) (by simp only; omega) htop
    refine ⟨pushed, cells1, ?_, ?_, by rw [hlen1, List.length_set], ?_⟩
    · simp only [push_all, hpush, ok_bind, hpushed]
    · rw [List.length_cons, pop_all_succ_last, hpopped, ok_bind]
      simp only
      rw [hlast, ok_bind]
      simp only [List.reverse_cons, Nat.add_sub_cancel, hhead]
    · have h2 : (cells1.take (self.stack.size + 1)).take self.stack.size
          = ((cells.set self.stack.size p).take (self.stack.size + 1)).take self.stack.size := by
        rw [htake1]
      rw [List.take_take, List.take_take, Nat.min_eq_left (by omega)] at h2
      rw [h2, List.set_take]
      exact List.set_eq_of_length_le (List.length_take_le _ _)

theorem keeps_pc_ok (self : vm_state_t) : keeps_pc self.pc (.ok self) := by
  intro s h
  injection h with h
  rw [← h]

theorem keeps_pc_error (pc : Nat) (e : vm_exit × vm_state_t) : keeps_pc pc (.error e) := by
  intro s h; cases h

theorem keeps_pc_bind {α : Type} (pc : Nat) (r : vm_result α) (k : α → vm_result vm_state_t)
    (hk : ∀ a, r = .ok a → keeps_pc pc (k a)) : keeps_pc pc (r >>= k) := by
  cases r with
  | error e => exact keeps_pc_error pc e
  | ok a => exact hk a rfl

theorem keeps_pc_assign (self : vm_state_t) (p : vm_lvalue) (v : Nat) :
    keeps_pc self.pc (vm_lvalue.assign self p v) := by
  intro s h
  unfold vm_lvalue.assign at h
  split at h
  · split at h
    · injection h with h; rw [← h]
    · cases h
  · split at h
    · cases h
    · split at h
      · cases h
      · injection h with h; rw [← h]

theorem keeps_pc_push (self : vm_state_t) (v : Nat) :
    keeps_pc self.pc (VM_stack_push self v) := by
  intro s h
  unfold VM_stack_push at h
  cases hs : VM_get_stack self with
  | error e => rw [hs] at h; cases h
  | ok stack =>
    rw [hs, ok_bind] at h
    dsimp only at h
    split at h
    · cases h
    · cases h
    · split at h
      · cases h
      · split at h
        · injection h with h; rw [← h]
        · cases h

theorem stack_pop_pc (self : vm_state_t) (popped : Nat × vm_state_t)
    (h : VM_stack_pop self = .ok popped) : popped.2.pc = self.pc := by
  unfold VM_stack_pop at h
  cases hs : VM_get_stack self with
  | error e => rw [hs] at h; cases h
  | ok stack =>
    rw [hs, ok_bind] at h
    dsimp only at h
    split at h
    · cases h
    · split at h
      · cases h
      · split at h
        · cases h
        · split at h
          · cases h
          · injection h with h; rw [← h]

theorem sequential_handler_keeps_pc (idx : Nat)
    (handler : vm_state_t → List Nat → vm_result vm_state_t)
    (hidx : idx ∈ sequential_opcodes) (hh : opcode_fn_table[idx]? = some handler)
    (self : vm_state_t) (operands : List Nat) :
    keeps_pc self.pc (handler self operands) := by
  have ha := fun p v => keeps_pc_assign self p v
  simp only [sequential_opcodes, List.mem_cons, List.mem_singleton, List.not_mem_nil,
    or_false] at hidx
  rcases hidx with h | h | h | h | h | h | h | h | h | h | h | h | h | h | h | h <;> subst h <;>
    simp only [opcode_fn_table, List.getElem?_cons_succ, List.getElem?_cons_zero,
      Option.some.injEq] at hh <;> subst hh
  · exact keeps_pc_bind _ _ _ (fun _ _ => ha _ _)
  · exact keeps_pc_bind _ _ _ (fun _ _ => keeps_pc_push _ _)
  · refine keeps_pc_bind _ _ _ (fun empty _ => ?_)
    cases empty
    · refine keeps_pc_bind _ _ _ (fun popped hp => ?_)
      have := keeps_pc_assign popped.2 (VM_interpret_lvalue (operands.getD 0 0)) popped.1
      rw [stack_pop_pc self popped hp] at this
      exact this
    · exact keeps_pc_error _ _
  · exact keeps_pc_bind _ _ _ (fun _ _ => keeps_pc_bind _ _ _ (fun _ _ => ha _ _))
  · exact keeps_pc_bind _ _ _ (fun _ _ => keeps_pc_bind _ _ _ (fun _ _ => ha _ _))
  · exact keeps_pc_bind _ _ _ (fun _ _ => keeps_pc_bind _ _ _ (fun _ _ => ha _ _))
  · refine keeps_pc_bind _ _ _ (fun vb _ => keeps_pc_bind _ _ _ (fun vc _ => ?_))
    by_cases h0 : vb * vc > INT_MAX
    · simpa [h0] using keeps_pc_error self.pc (vm_exit.undefined, self)
    · simpa [h0] using ha _ _
  · refine keeps_pc_bind _ _ _ (fun vb _ => keeps_pc_bind _ _ _ (fun vc _ => ?_))
    by_cases h0 : vc = 0
    · simpa [h0] using keeps_pc_error self.pc (vm_exit.undefined, self)
    · simpa [h0] using ha _ _
  · exact keeps_pc_bind _ _ _ (fun _ _ => keeps_pc_bind _ _ _ (fun _ _ => ha _ _))
  · exact keeps_pc_bind _ _ _ (fun _ _ => keeps_pc_bind _ _ _ (fun _ _ => ha _ _))
  · exact keeps_pc_bind _ _ _ (fun _ _ => ha _ _)
  · exact keeps_pc_bind _ _ _ (fun _ _ => keeps_pc_bind _ _ _ (fun _ _ => ha _ _))
  · exact keeps_pc_bind _ _ _ (fun _ _ => keeps_pc_bind _ _ _ (fun _ _ => ha _ _))
  · intro s h
    simp only [VM_opcode_out, Except.ok.injEq] at h
    rw [← h]
  · unfold VM_opcode_in
    split
    · exact ha _ _
    · exact keeps_pc_assign { self with input := _ } _ _
  · exact keeps_pc_ok self

theorem read_operands_state :
    ∀ (remaining i : Nat) (self : vm_state_t) (operands : List Nat)
      (result : List Nat × Nat × vm_state_t),
      self.pc < WORD_RANGE →
      VM_read_operands self operands i remaining = .ok result →
      result.2.2 = { self with pc := (self.pc + 2 * remaining) % WORD_RANGE } := by
  intro remaining
  induction remaining with
  | zero =>
    intro i self operands result hpc h
    simp only [VM_read_operands, Except.ok.injEq] at h
    rw [← h]
    simp only [Nat.mul_zero, Nat.add_zero, Nat.mod_eq_of_lt hpc]
  | succ r ih =>
    intro i self operands result hpc h
    unfold VM_read_operands at h
    unfold VM_read_word at h
    split at h
    · simp [VM_undefined] at h
    · split at h
      · simp [VM_undefined] at h
      · rename_i bytes hbytes word hword
        rw [ok_bind] at h
        by_cases hov : word ≥ 32776
        · simp [hov, VM_error] at h
        · simp only [hov, if_false] at h
          have := ih (i + 1) _ _ result (Nat.mod_lt _ (by decide)) h
          rw [this]
          have hshift : ((self.pc + 2) % WORD_RANGE + 2 * r) % WORD_RANGE
              = (self.pc + 2 * (r + 1)) % WORD_RANGE := by
            unfold WORD_RANGE; omega
          simp only [hshift]

/-- One cycle on an instruction that is not a control transfer, when it
returns, has advanced `pc` by `1 + arity` words modulo the 16-bit range. -/
theorem cycle_advances_pc (self next : vm_state_t) (bytes : List Nat) (opcode_idx : Nat)
    (opcode : opcode_t)
    (hbuf : self.buffer.buffer = some bytes)
    (hop : word_at bytes self.pc = some opcode_idx)
    (hknown : OPCODE_LIST[opcode_idx]? = some opcode)
    (hidx : opcode_idx ∈ sequential_opcodes)
    (hcycle : VM_execute_cycle self = .ok next) :
    next.pc = (self.pc + 2 + 2 * opcode.n_params) % WORD_RANGE := by
  obtain ⟨handler, hh⟩ := fn_table_of_opcode opcode_idx opcode hknown
  simp only [VM_execute_cycle, VM_read_word, hbuf, hop, ok_bind, hknown, hh] at hcycle
  cases hdec : VM_read_operands { self with pc := (self.pc + 2) % WORD_RANGE } [0, 0, 0] 0
      opcode.n_params with
  | error e => rw [hdec] at hcycle; cases hcycle
  | ok decoded =>
    rw [hdec, ok_bind] at hcycle
    have hstate := read_operands_state _ _ _ _ decoded (Nat.mod_lt _ (by decide)) hdec
    have hcount := read_operands_count _ _ _ _ _ hdec
    have hi : ¬ decoded.2.1 ≠ opcode.n_params := by omega
    simp only [hi, if_false] at hcycle
    have hkeep := sequential_handler_keeps_pc opcode_idx handler hidx hh decoded.2.2 decoded.1
      next hcycle
    rw [hkeep, hstate]
    show ((self.pc + 2) % WORD_RANGE + 2 * opcode.n_params) % WORD_RANGE = _
    unfold WORD_RANGE; omega

theorem pop_on_empty_stack (self : vm_state_t) (cells : List Nat) (operands : List Nat)
    (hblock : self.stack.block = some cells) (hempty : self.stack.size = 0) :
    VM_opcode_pop self operands = VM_error .pop_when_empty self := by
  simp only [VM_opcode_pop, VM_stack_isempty, VM_get_stack, hblock, ok_bind, pure_eq_ok, hempty,
    beq_self_eq_true, if_true]

theorem ret_on_empty_stack (self : vm_state_t) (cells : List Nat) (operands : List Nat)
    (hblock : self.stack.block = some cells) (hempty : self.stack.size = 0) :
    VM_opcode_ret self operands
      = VM_error .pop_from_empty_stack { self with stack :=
          { self.stack with size := SIZE_RANGE - 1 } } := by
  simp only [VM_opcode_ret, stack_pop_empty self cells hblock hempty, VM_error_bind]

theorem pop_on_nonempty_stack (self : vm_state_t) (cells : List Nat) (operands : List Nat)
    (t : Nat)
    (hblock : self.stack.block = some cells) (hhead : self.stack.head = self.stack.size)
    (hpos : 0 < self.stack.size) (hsize : self.stack.size < SIZE_RANGE)
    (htop : cells[self.stack.size - 1]? = some t) :
    VM_opcode_pop self operands
      = vm_lvalue.assign { self with stack :=
          { block := some cells, head := self.stack.size - 1,
            size := self.stack.size - 1, capacity := self.stack.capacity } }
          (VM_interpret_lvalue (operands.getD 0 0)) t := by
  have hne : (self.stack.size == 0) = false := by
    simp only [beq_eq_false_iff_ne, ne_eq]; omega
  simp only [VM_opcode_pop, VM_stack_isempty, VM_get_stack, hblock, ok_bind, pure_eq_ok, hne,
    Bool.false_eq_true, if_false,
    stack_pop_nonempty self cells t hblock hhead hpos hsize htop]

theorem ret_on_nonempty_stack (self : vm_state_t) (cells : List Nat) (operands : List Nat)
    (t : Nat)
    (hblock : self.stack.block = some cells) (hhead : self.stack.head = self.stack.size)
    (hpos : 0 < self.stack.size) (hsize : self.stack.size < SIZE_RANGE)
    (htop : cells[self.stack.size - 1]? = some t) :
    VM_opcode_ret self operands
      = .ok { self with
          stack := { block := some cells, head := self.stack.size - 1,
                     size := self.stack.size - 1, capacity := self.stack.capacity },
          pc := t } := by
  simp only [VM_opcode_ret, stack_pop_nonempty self cells t hblock hhead hpos hsize htop,
    ok_bind, pure_eq_ok]

/-- For a word address below 16384 inside the buffer WMEM stores into that
word, and `VM_read_word_at` then reads the stored word. -/
theorem wmem_low_address (self : vm_state_t) (bytes : List Nat) (a b m v : Nat)
    (rest : List Nat)
    (hbuf : self.buffer.buffer = some bytes)
    (hva : VM_interpret_value self a = .ok m) (hvb : VM_interpret_value self b = .ok v)
    (hm : m < 16384) (hin : 2 * m + 1 < bytes.length) :
    ∃ bytes', set_word_at bytes (2 * m) (v % WORD_RANGE) = some bytes' ∧
      VM_opcode_wmem self (a :: b :: rest)
        = .ok { self with buffer := { self.buffer with buffer := some bytes' } } ∧
      VM_read_word_at { self with buffer := { self.buffer with buffer := some bytes' } } m
        = .ok (v % WORD_RANGE) := by
  have hset : set_word_at bytes (2 * m) (v % WORD_RANGE)
      = some ((bytes.set (2 * m) (v % WORD_RANGE % 256)).set (2 * m + 1)
          (v % WORD_RANGE / 256 % 256)) := by
    simp [set_word_at, hin]
  have hmod : 2 * m % WORD_RANGE = 2 * m := by unfold WORD_RANGE; omega
  have hlit : ¬ 2 * m ≥ 32768 := by omega
  refine ⟨_, hset, ?_, ?_⟩
  · simp only [VM_opcode_wmem, List.getD_cons_succ, List.getD_cons_zero, hva, hvb, ok_bind, hmod,
      VM_interpret_lvalue, hlit, if_false, vm_lvalue.assign, hbuf, hset]
  · simp only [VM_read_word_at,
      word_at_set_word_at bytes _ (2 * m) (v % WORD_RANGE) hset (Nat.mod_lt _ (by decide))]

/-- A literal target operand `a` designates the word at byte offset `a` of the
load buffer: SET stores there. -/
theorem set_literal_target (self : vm_state_t) (bytes : List Nat) (a b v : Nat)
    (rest : List Nat)
    (hbuf : self.buffer.buffer = some bytes)
    (hvb : VM_interpret_value self b = .ok v)
    (ha : a ≤ 32767) (hin : a + 1 < bytes.length) :
    ∃ bytes', set_word_at bytes a (v % WORD_RANGE) = some bytes' ∧
      VM_opcode_set self (a :: b :: rest)
        = .ok { self with buffer := { self.buffer with buffer := some bytes' } } ∧
      word_at bytes' a = some (v % WORD_RANGE) := by
  have hset : set_word_at bytes a (v % WORD_RANGE)
      = some ((bytes.set a (v % WORD_RANGE % 256)).set (a + 1)
          (v % WORD_RANGE / 256 % 256)) := by
    simp [set_word_at, hin]
  have hlit : ¬ a ≥ 32768 := by omega
  refine ⟨_, hset, ?_, ?_⟩
  · simp only [VM_opcode_set, List.getD_cons_succ, List.getD_cons_zero, hvb, ok_bind,
      VM_interpret_lvalue, hlit, if_false, vm_lvalue.assign, hbuf, hset]
  · exact word_at_set_word_at bytes _ a (v % WORD_RANGE) hset (Nat.mod_lt _ (by decide))

/-! ## Properties of the specification -/

/-- C1: for every operand word `v` and every register file, `VM_interpret_value`
returns `v` itself when `v ≤ 32767` and the content of register `v - 32768`
when `32768 ≤ v ≤ 32775` (the register file having its 8 entries); a word
`v ≥ 32776` read by `VM_execute` in an operand position stops the cycle with
the operand-overflow error while the operands are read, the state differing
from the one before the fetch in `pc` only, so no handler has run. -/
theorem C1_interpret_value (self : vm_state_t) (v : Nat) :
    (v ≤ 32767 → VM_interpret_value self v = .ok v) ∧
    (32768 ≤ v → v ≤ 32775 → self.registers.length = N_REGISTERS →
      VM_interpret_value self v = .ok (self.registers.getD (v - 32768) 0)) ∧
    (32776 ≤ v → ∀ (bytes : List Nat) (opcode_idx : Nat) (opcode : opcode_t) (k : Nat),
      self.buffer.buffer = some bytes →
      word_at bytes self.pc = some opcode_idx →
      OPCODE_LIST[opcode_idx]? = some opcode →
      k < opcode.n_params →
      (∀ j, j ≤ k → ∃ w, word_at bytes (operand_offset self.pc j) = some w) →
      word_at bytes (operand_offset self.pc k) = some v →
      ∃ pc', VM_execute_cycle self = VM_error .operand_overflow { self with pc := pc' }) := by
  refine ⟨?_, ?_, ?_⟩
  · intro h
    have : ¬ v ≥ 32768 := by omega
    simp [VM_interpret_value, this]
  · intro h1 h2 hregs
    have hlt : v - 32768 < self.registers.length := by
      rw [hregs]; unfold N_REGISTERS; omega
    simp [VM_interpret_value, h1, List.getElem?_eq_getElem hlt, List.getD_eq_getElem _ _ hlt]
  · intro h bytes opcode_idx opcode k hbuf hop hknown hk hin hv
    exact cycle_operand_overflow self bytes opcode_idx opcode k v hbuf hop hknown hk hin hv h

theorem C1_interpret_value_witness :
    VM_interpret_value (loaded_state [19, 40000]) 65 = .ok 65 ∧
    VM_interpret_value (loaded_state [19, 40000]) 32770 = .ok 0 ∧
    (∃ pc', VM_execute_cycle (loaded_state [19, 40000])
      = VM_error .operand_overflow { loaded_state [19, 40000] with pc := pc' }) :=
  ⟨(C1_interpret_value (loaded_state [19, 40000]) 65).1 (by decide),
   (C1_interpret_value (loaded_state [19, 40000]) 32770).2.1 (by decide) (by decide) (by decide),
   (C1_interpret_value (loaded_state [19, 40000]) 40000).2.2 (by decide)
     (image_bytes [19, 40000]) 19 ⟨"OUT", 1⟩ 0 (by rfl) (by decide) (by decide) (by decide)
     (by intro j hj; exact ⟨40000, by interval_cases j; decide⟩) (by decide)⟩

/-- C2: on a freshly initialised VM (whatever the structure held before),
`VM_load (from, n)` returns true exactly when `n ≤ 65536`; for `n > 65536` it
returns false and changes only the traceback, which becomes
(`VM_load`, size exceeded), so the buffer stays `NULL`, its size, the
registers, the stack, `pc` and the output are as before; and `main` then ends
in `halt_with_traceback` without calling `execute`. -/
theorem C2_load_size (state : vm_state_t) (src : Option (List Nat)) (n : Nat) :
    ((VM_load ( VM_initialize state true).2 src n).1 = true ↔ n ≤ 65536) ∧
    (n > 65536 →
      VM_load ( VM_initialize state true).2 src n
        = (false, { ( VM_initialize state true).2 with
            traceback := { function := "VM_load",
                           reason := "cannot load buffers larger than 65536 bytes" } }) ∧
      (VM_load ( VM_initialize state true).2 src n).2.buffer.buffer = none ∧
      (VM_load ( VM_initialize state true).2 src n).2.buffer.size = state.buffer.size ∧
      (VM_load ( VM_initialize state true).2 src n).2.output = state.output) ∧
    (∀ (program_buffer : List Nat) (fuel : Nat), program_buffer.length > 65536 →
      main state true program_buffer fuel
        = .halt_with_traceback { ( VM_initialize state true).2 with
            traceback := { function := "VM_load",
                           reason := "cannot load buffers larger than 65536 bytes" } }) := by
  have hs : ("cannot load buffers larger than " ++ VM_MAX_LOADSIZE_S ++ " bytes")
      = "cannot load buffers larger than 65536 bytes" := by decide
  refine ⟨?_, ?_, ?_⟩
  · by_cases h : n ≤ 65536
    · have h' : ¬ n > 65536 := by omega
      simp [VM_load, VM_initialize, VM_stack_initialize, VM_MAX_LOADSIZE, h, h']
    · have h' : n > 65536 := by omega
      simp [VM_load, VM_initialize, VM_stack_initialize, VM_MAX_LOADSIZE, h, h']
  · intro h
    simp [VM_load, VM_initialize, VM_stack_initialize, VM_MAX_LOADSIZE, h, VM_set_traceback, hs]
  · intro program_buffer fuel h
    simp [main, VM_load, VM_initialize, VM_stack_initialize, VM_MAX_LOADSIZE, h,
      VM_set_traceback, hs]

theorem C2_load_size_witness :
    (VM_load ( VM_initialize zero_state true).2 (some (List.replicate 70000 0)) 70000).1 = false ∧
    (VM_load ( VM_initialize zero_state true).2
      (some (List.replicate 70000 0)) 70000).2.buffer.buffer = none ∧
    main zero_state true (List.replicate 70000 0) 5
        = .halt_with_traceback { ( VM_initialize zero_state true).2 with
            traceback := { function := "VM_load",
                           reason := "cannot load buffers larger than 65536 bytes" } } := by
  have h := C2_load_size zero_state (some (List.replicate 70000 0)) 70000
  refine ⟨?_, (h.2.1 (by decide)).2.1, h.2.2 (List.replicate 70000 0) 5 (by rw [List.length_replicate]; decide)⟩
  rw [(h.2.1 (by decide)).1]

/-- C3, on a first load of `NULL`: `VM_load (NULL, 0)` on a freshly initialised
VM returns true and leaves `buffer.buffer` at `NULL`, so the guard of the next
call does not fire: a further `VM_load` of a 2-byte buffer returns true as well
and attaches it. -/
theorem C3_null_load_then_second_load :
    VM_load ( VM_initialize zero_state true).2 none 0
      = (true, { ( VM_initialize zero_state true).2 with
          buffer := { buffer := none, size := 0 } }) ∧
    VM_load { ( VM_initialize zero_state true).2 with
          buffer := { buffer := none, size := 0 } } (some [0, 0]) 2
      = (true, { ( VM_initialize zero_state true).2 with
          buffer := { buffer := some [0, 0], size := 2 } }) := by
  refine ⟨by rfl, by rfl⟩

/-- C3, as the code behaves: after one successful `VM_load` of a buffer that is
not `NULL`, every further `VM_load` call on that instance (any pointer, any length, after any number of other such
calls) returns false, sets the traceback to (`VM_load`, cannot double-load
buffers), and leaves the attached buffer, its size, the registers, the stack
and `pc` as the first load left them. -/
theorem C3_double_load (self loaded : vm_state_t) (bytes : List Nat) (n : Nat)
    (hload : VM_load self (some bytes) n = (true, loaded))
    (calls : List (Option (List Nat) × Nat)) (src : Option (List Nat)) (m : Nat) :
    VM_load (calls.foldl (fun s call => (VM_load s call.1 call.2).2) loaded) src m
      = (false, { loaded with
          traceback := { function := "VM_load", reason := "cannot double-load buffers" } }) ∧
    loaded.buffer = { buffer := some bytes, size := n } ∧
    loaded.registers = self.registers ∧ loaded.stack = self.stack ∧ loaded.pc = self.pc := by
  have hfix : ∀ (s : vm_state_t) (src : Option (List Nat)) (m : Nat),
      s.buffer.buffer ≠ none →
      VM_load s src m = (false, { s with
        traceback := { function := "VM_load", reason := "cannot double-load buffers" } }) := by
    intro s src m hs
    simp [VM_load, hs, VM_set_traceback]
  have hl : loaded = { self with buffer := { buffer := some bytes, size := n } } := by
    unfold VM_load at hload
    split at hload
    · simp at hload
    · split at hload
      · simp at hload
      · simpa using hload.symm
  have hfold : ∀ (calls : List (Option (List Nat) × Nat)) (s : vm_state_t),
      s.buffer.buffer ≠ none →
      (calls.foldl (fun s call => (VM_load s call.1 call.2).2) s = s ∨
       calls.foldl (fun s call => (VM_load s call.1 call.2).2) s = { s with
        traceback := { function := "VM_load", reason := "cannot double-load buffers" } }) := by
    intro calls
    induction calls with
    | nil => intro s _; exact Or.inl rfl
    | cons c cs ih =>
      intro s hs
      simp only [List.foldl_cons, hfix s c.1 c.2 hs]
      rcases ih { s with
        traceback := { function := "VM_load", reason := "cannot double-load buffers" } } hs
        with h | h
      · exact Or.inr h
      · exact Or.inr h
  have hne : loaded.buffer.buffer ≠ none := by rw [hl]; simp
  refine ⟨?_, by rw [hl], by rw [hl], by rw [hl], by rw [hl]⟩
  rcases hfold calls loaded hne with h | h
  · rw [h]; exact hfix loaded src m hne
  · rw [h]; exact hfix _ src m hne

theorem C3_double_load_witness :
    VM_load (loaded_state [19, 65]) (some [0, 0]) 2
      = (false, { loaded_state [19, 65] with
          traceback := { function := "VM_load", reason := "cannot double-load buffers" } }) :=
  (C3_double_load ( VM_initialize zero_state true).2 (loaded_state [19, 65])
    (image_bytes [19, 65]) 4 (by decide) [] (some [0, 0]) 2).1

/-- C4, on 33 pushes: on a freshly initialised VM 32 pushes succeed and fill
the block; the 33rd `VM_stack_push` finds `size == capacity`, calls
`__VM_stack_reallocate` with `size` already incremented, so the pointer given
to `realloc` lies one word before the block: the behaviour is undefined and no
value is stored. `VM_stack_pop` on the empty stack does stop with its error. -/
theorem C4_push_beyond_capacity :
    push_all ( VM_initialize zero_state true).2 (List.replicate 32 7)
      = .ok { ( VM_initialize zero_state true).2 with
          stack := { block := some (List.replicate 32 7), head := 32, size := 32,
                     capacity := 32 } } ∧
    VM_stack_push { ( VM_initialize zero_state true).2 with
          stack := { block := some (List.replicate 32 7), head := 32, size := 32,
                     capacity := 32 } } 7
      = VM_undefined { ( VM_initialize zero_state true).2 with
          stack := { block := some (List.replicate 32 7), head := 32, size := 33,
                     capacity := 32 } } ∧
    VM_stack_pop ( VM_initialize zero_state true).2
      = VM_error .pop_from_empty_stack { ( VM_initialize zero_state true).2 with
          stack := { block := some (List.replicate 32 0), head := 0,
                     size := 18446744073709551615, capacity := 32 } } := by
  refine ⟨by rfl, by rfl, by rfl⟩

/-- C5: for legal operands `b`, `c` whose resolved values `vb`, `vc` are at most
32767, and a target operand `a` that designates an object, `ADD a,b,c` returns
with `(vb + vc) mod 32768` stored in the target and `MULT a,b,c` returns with
`(vb * vc) mod 32768` (the exact product) stored in the target; both stored
words are at most 32767. -/
theorem C5_add_mult_mod (self : vm_state_t) (a b c vb vc old : Nat)
    (hvb : VM_interpret_value self b = .ok vb) (hvc : VM_interpret_value self c = .ok vc)
    (hbr : vb ≤ 32767) (hcr : vc ≤ 32767)
    (htarget : vm_lvalue.read self (VM_interpret_lvalue a) = some old) :
    (∃ s', VM_opcode_add self [a, b, c] = .ok s' ∧
      vm_lvalue.read s' (VM_interpret_lvalue a) = some ((vb + vc) % 32768)) ∧
    (∃ s', VM_opcode_mult self [a, b, c] = .ok s' ∧
      vm_lvalue.read s' (VM_interpret_lvalue a) = some ((vb * vc) % 32768)) ∧
    (vb + vc) % 32768 ≤ 32767 ∧ (vb * vc) % 32768 ≤ 32767 := by
  have hmod : ∀ x : Nat, x % 32768 % WORD_RANGE = x % 32768 := by
    intro x; unfold WORD_RANGE; omega
  have hprod : ¬ vb * vc > INT_MAX := by
    have : vb * vc ≤ 32767 * 32767 := Nat.mul_le_mul hbr hcr
    unfold INT_MAX; omega
  refine ⟨?_, ?_, by omega, by omega⟩
  · obtain ⟨s', hs', hr⟩ := assign_read self (VM_interpret_lvalue a) ((vb + vc) % 32768) old htarget
    refine ⟨s', ?_, by rw [hr, hmod]⟩
    simp only [VM_opcode_add, List.getD_cons_succ, List.getD_cons_zero, hvb, hvc, ok_bind, hs']
  · obtain ⟨s', hs', hr⟩ := assign_read self (VM_interpret_lvalue a) ((vb * vc) % 32768) old htarget
    refine ⟨s', ?_, by rw [hr, hmod]⟩
    simp only [VM_opcode_mult, List.getD_cons_succ, List.getD_cons_zero, hvb, hvc, ok_bind,
      hprod, if_false, hs']

theorem C5_add_mult_mod_witness :
    (∃ s', VM_opcode_add { loaded_state [9, 32768, 32767, 32769] with
        registers := [0, 32767, 0, 0, 0, 0, 0, 0] } [32768, 32767, 32769] = .ok s' ∧
      vm_lvalue.read s' (VM_interpret_lvalue 32768) = some ((32767 + 32767) % 32768)) ∧
    (∃ s', VM_opcode_mult { loaded_state [9, 32768, 32767, 32769] with
        registers := [0, 32767, 0, 0, 0, 0, 0, 0] } [32768, 32767, 32769] = .ok s' ∧
      vm_lvalue.read s' (VM_interpret_lvalue 32768) = some ((32767 * 32767) % 32768)) :=
  have h := C5_add_mult_mod { loaded_state [9, 32768, 32767, 32769] with
      registers := [0, 32767, 0, 0, 0, 0, 0, 0] } 32768 32767 32769 32767 32767 0
    (by rfl) (by rfl) (by decide) (by decide) (by rfl)
  ⟨h.1, h.2.1⟩

/-- C6, on a concrete image: on the image `CALL 3; NOP; RET` the two cycles CALL and
RET leave `pc = 2`, a byte offset: the next opcode fetched is the word at byte
offset 2 (word address 1, the operand `3` of the CALL), not the word at word
address 2 (the `NOP`, opcode 21, that follows the CALL). -/
theorem C6_call_ret_returns_to_byte_offset :
    (VM_execute_cycle (loaded_state [17, 3, 21, 18]) >>= VM_execute_cycle)
      = .ok { loaded_state [17, 3, 21, 18] with
          pc := 2,
          stack := { block := some (2 :: List.replicate 31 0), head := 0, size := 0,
                     capacity := 32 } } ∧
    word_at (image_bytes [17, 3, 21, 18]) 2 = some 3 ∧
    word_at (image_bytes [17, 3, 21, 18]) (2 * 2) = some 21 := by
  have h1 : VM_execute_cycle (loaded_state [17, 3, 21, 18])
      = .ok { loaded_state [17, 3, 21, 18] with
          pc := 6,
          stack := { block := some (2 :: List.replicate 31 0), head := 1, size := 1,
                     capacity := 32 } } := by rfl
  have h2 : VM_execute_cycle { loaded_state [17, 3, 21, 18] with
          pc := 6,
          stack := { block := some (2 :: List.replicate 31 0), head := 1, size := 1,
                     capacity := 32 } }
      = .ok { loaded_state [17, 3, 21, 18] with
          pc := 2,
          stack := { block := some (2 :: List.replicate 31 0), head := 0, size := 0,
                     capacity := 32 } } := by rfl
  refine ⟨?_, by rfl, by rfl⟩
  rw [h1, ok_bind, h2]

/-- C7, on a concrete image: on an image of 16385 words that starts with
`WMEM 16384, 7`, the cycle leaves the load buffer as it was (the word at word
address 16384 is still 0) and writes 7 into register 0. -/
theorem C7_wmem_high_address_hits_register :
    VM_execute_cycle (loaded_from zero_state wmem_image 32770)
      = .ok { loaded_from zero_state wmem_image 32770 with
          pc := 6, registers := [7, 0, 0, 0, 0, 0, 0, 0] } ∧
    (loaded_from zero_state wmem_image 32770).registers = [0, 0, 0, 0, 0, 0, 0, 0] ∧
    (loaded_from zero_state wmem_image 32770).buffer
      = { buffer := some wmem_image, size := 32770 } ∧
    word_at wmem_image (2 * 16384) = some 0 := by
  have hw := wmem_image_words
  refine ⟨?_, by rfl, by rfl, hw.2.2.2⟩
  have hpc : (loaded_from zero_state wmem_image 32770).pc = 0 := rfl
  have hws : operands_at wmem_image (loaded_from zero_state wmem_image 32770).pc 0
      [16384, 7] = true := by
    rw [hpc]
    simp only [operands_at, operand_offset, WORD_RANGE, hw.2.1, hw.2.2.1]
    decide
  exact cycle_eval (loaded_from zero_state wmem_image 32770) wmem_image 16 ⟨"WMEM", 2⟩
    VM_opcode_wmem [16384, 7] _ (by rfl) hw.1 (by rfl) (by rfl) (by rfl) hws (by rfl)

/-- C8, on the program of the claim: the program `SET r0 2; ADD r0 r0 1; OUT r0` runs to the
end of the image with register 0 equal to 3 and writes one byte, 0: the low
byte of the operand word 32768 itself. -/
theorem C8_out_prints_raw_operand :
    VM_execute 3 (loaded_state [1, 32768, 2, 9, 32768, 32768, 1, 19, 32768])
      = .returned true { loaded_state [1, 32768, 2, 9, 32768, 32768, 1, 19, 32768] with
          pc := 18, registers := [3, 0, 0, 0, 0, 0, 0, 0], output := [0] } := by
  rw [execute_succ_ok 2 (loaded_state [1, 32768, 2, 9, 32768, 32768, 1, 19, 32768])
      { loaded_state [1, 32768, 2, 9, 32768, 32768, 1, 19, 32768] with
          pc := 6, registers := [2, 0, 0, 0, 0, 0, 0, 0] } (by decide)
      (cycle_eval _ (image_bytes [1, 32768, 2, 9, 32768, 32768, 1, 19, 32768]) 1 ⟨"SET", 2⟩
        VM_opcode_set [32768, 2] _ (by rfl) (by rfl) (by rfl) (by rfl) (by rfl) (by rfl)
        (by rfl)),
    execute_succ_ok 1 _
      { loaded_state [1, 32768, 2, 9, 32768, 32768, 1, 19, 32768] with
          pc := 14, registers := [3, 0, 0, 0, 0, 0, 0, 0] } (by decide)
      (cycle_eval _ (image_bytes [1, 32768, 2, 9, 32768, 32768, 1, 19, 32768]) 9 ⟨"ADD", 3⟩
        VM_opcode_add [32768, 32768, 1] _ (by rfl) (by rfl) (by rfl) (by rfl) (by rfl) (by rfl)
        (by rfl)),
    execute_succ_ok 0 _
      { loaded_state [1, 32768, 2, 9, 32768, 32768, 1, 19, 32768] with
          pc := 18, registers := [3, 0, 0, 0, 0, 0, 0, 0], output := [0] } (by decide)
      (cycle_eval _ (image_bytes [1, 32768, 2, 9, 32768, 32768, 1, 19, 32768]) 19 ⟨"OUT", 1⟩
        VM_opcode_out [32768] _ (by rfl) (by rfl) (by rfl) (by rfl) (by rfl) (by rfl)
        (by rfl)),
    execute_done 0 _ (by decide)]

/-- For every image whose first word `w` is at least 22, on a VM that was
initialised from a structure whose `pc` field was 0 and then loaded with the
image (`0 < n ≤ 65536` bytes), `VM_execute` ends in the
`misaligned jmp, or operand not implemented yet` error; at that moment only the
opcode word has been read (`pc = 2`) and every other field, among them the
registers (all zero), the stack (empty) and the output, is as the load left
it. -/
theorem unknown_opcode_from_pc_zero (state : vm_state_t) (image : List Nat) (n w fuel : Nat)
    (hpc : state.pc = 0) (hn : 0 < n) (hmax : n ≤ 65536)
    (hw : word_at image 0 = some w) (h22 : 22 ≤ w) :
    VM_execute (fuel + 1) (loaded_from state image n)
      = .exited (.fatal .misaligned_jmp) { loaded_from state image n with pc := 2 } ∧
    (loaded_from state image n).registers = List.replicate 8 0 ∧
    (loaded_from state image n).stack.size = 0 ∧
    (loaded_from state image n).output = state.output := by
  have hle : ¬ n > VM_MAX_LOADSIZE := by unfold VM_MAX_LOADSIZE; omega
  have hl : loaded_from state image n
      = { ( VM_initialize state true).2 with buffer := { buffer := some image, size := n } } := by
    simp [loaded_from, VM_load, hle, VM_initialize, VM_stack_initialize]
  have hpc0 : (loaded_from state image n).pc = 0 := by rw [hl]; exact hpc
  refine ⟨?_, by rw [hl]; rfl, by rw [hl]; rfl, by rw [hl]; rfl⟩
  have h := execute_unknown_opcode (loaded_from state image n) image w fuel
    (by rw [hl]) (by rw [hpc0, hl]; exact hn) (by rw [hpc0]; exact hw) h22
  rw [h, hpc0]
  rfl

theorem unknown_opcode_from_pc_zero_example :
    VM_execute 1 (loaded_from zero_state (image_bytes [99]) 2)
      = .exited (.fatal .misaligned_jmp)
          { loaded_from zero_state (image_bytes [99]) 2 with pc := 2 } :=
  (unknown_opcode_from_pc_zero zero_state (image_bytes [99]) 2 99 0 (by rfl) (by decide) (by decide)
    (by rfl) (by decide)).1

/-- C9, on a concrete structure: `VM_initialize` on a structure whose `pc` field
holds 2 leaves it at 2, so on the image `[99, 21]` the first fetch is the NOP
at byte offset 2: the word 99 is never read as an opcode, and `VM_execute`
returns true at `pc = 4` without any error. -/
theorem C9_unknown_opcode_skipped :
    VM_execute 1 (loaded_from { zero_state with pc := 2 } (image_bytes [99, 21]) 4)
      = .returned true
          { loaded_from { zero_state with pc := 2 } (image_bytes [99, 21]) 4 with pc := 4 } ∧
    word_at (image_bytes [99, 21]) 0 = some 99 := by
  refine ⟨?_, by rfl⟩
  rw [execute_succ_ok 0 _
    { loaded_from { zero_state with pc := 2 } (image_bytes [99, 21]) 4 with pc := 4 }
    (by decide) (by rfl)]
  exact execute_done 0 _ (by decide)

/-- C10: in a cycle of `VM_execute` whose opcode word is a known opcode, if the
operand word at some position `i` below the arity is at least 32776 (the
operand words up to `i` lying inside the buffer), the run ends in the
`operand overflow caught` error with registers, load buffer, stack, input and
output exactly as before the fetch; if every operand word of the instruction
is below 32776, the cycle does not end in that error. -/
theorem C10_operand_overflow (self : vm_state_t) (bytes : List Nat) (opcode_idx : Nat)
    (opcode : opcode_t)
    (hbuf : self.buffer.buffer = some bytes)
    (hrun : self.pc < self.buffer.size)
    (hop : word_at bytes self.pc = some opcode_idx)
    (hknown : OPCODE_LIST[opcode_idx]? = some opcode) :
    (∀ i v fuel, i < opcode.n_params →
      (∀ j, j ≤ i → ∃ w, word_at bytes (operand_offset self.pc j) = some w) →
      word_at bytes (operand_offset self.pc i) = some v → 32776 ≤ v →
      ∃ s', VM_execute (fuel + 1) self = .exited (.fatal .operand_overflow) s' ∧
        s'.registers = self.registers ∧ s'.buffer = self.buffer ∧ s'.stack = self.stack ∧
        s'.input = self.input ∧ s'.output = self.output) ∧
    ((∀ j w, j < opcode.n_params →
        word_at bytes (operand_offset self.pc j) = some w → w < 32776) →
      ∀ s', VM_execute_cycle self ≠ .error (.fatal .operand_overflow, s')) := by
  constructor
  · intro i v fuel hi hin hv hge
    obtain ⟨pc', hpc'⟩ :=
      cycle_operand_overflow self bytes opcode_idx opcode i v hbuf hop hknown hi hin hv hge
    refine ⟨{ self with pc := pc' }, ?_, rfl, rfl, rfl, rfl, rfl⟩
    simp only [VM_execute, hrun, if_true, hpc']
    rfl
  · intro hall
    exact cycle_no_overflow self bytes opcode_idx opcode hbuf hop hknown hall

theorem C10_operand_overflow_witness :
    (∃ s', VM_execute 1 (loaded_state [9, 32768, 40000, 1])
        = .exited (.fatal .operand_overflow) s' ∧
      s'.registers = (loaded_state [9, 32768, 40000, 1]).registers ∧
      s'.buffer = (loaded_state [9, 32768, 40000, 1]).buffer ∧
      s'.stack = (loaded_state [9, 32768, 40000, 1]).stack ∧
      s'.input = (loaded_state [9, 32768, 40000, 1]).input ∧
      s'.output = (loaded_state [9, 32768, 40000, 1]).output) ∧
    (∀ s', VM_execute_cycle (loaded_state [9, 32768, 2, 1])
      ≠ .error (.fatal .operand_overflow, s')) :=
  ⟨(C10_operand_overflow (loaded_state [9, 32768, 40000, 1])
      (image_bytes [9, 32768, 40000, 1]) 9 ⟨"ADD", 3⟩ (by rfl) (by decide) (by rfl)
      (by rfl)).1 1 40000 0 (by decide)
      (by
        intro j hj
        interval_cases j
        · exact ⟨32768, by rfl⟩
        · exact ⟨40000, by rfl⟩)
      (by rfl) (by decide),
   (C10_operand_overflow (loaded_state [9, 32768, 2, 1])
      (image_bytes [9, 32768, 2, 1]) 9 ⟨"ADD", 3⟩ (by rfl) (by decide) (by rfl)
      (by rfl)).2
      (by
        intro j w hj hjw
        have hj3 : j < 3 := hj
        interval_cases j
        · have : word_at (image_bytes [9, 32768, 2, 1]) (operand_offset 0 0) = some 32768 := by
            rfl
          have hpc : (loaded_state [9, 32768, 2, 1]).pc = 0 := rfl
          rw [hpc, this] at hjw
          injection hjw with hjw
          omega
        · have : word_at (image_bytes [9, 32768, 2, 1]) (operand_offset 0 1) = some 2 := by
            rfl
          have hpc : (loaded_state [9, 32768, 2, 1]).pc = 0 := rfl
          rw [hpc, this] at hjw
          injection hjw with hjw
          omega
        · have : word_at (image_bytes [9, 32768, 2, 1]) (operand_offset 0 2) = some 1 := by
            rfl
          have hpc : (loaded_state [9, 32768, 2, 1]).pc = 0 := rfl
          rw [hpc, this] at hjw
          injection hjw with hjw
          omega)⟩

/-- C11, on a concrete image: on the one-word image `[19]` (OUT without its
operand) the operand loop reads at byte offset 2, outside the 2-byte buffer:
the behaviour is undefined, and it is not the `incorrect number` error. On a
buffer that holds more bytes than the loaded size (`[19, 65]` loaded with size
2) the operand is read from beyond the loaded size and the handler runs on
it. -/
theorem C11_operand_read_past_image :
    VM_execute 1 (loaded_state [19])
      = .exited .undefined { loaded_state [19] with pc := 2 } ∧
    VM_execute 1 (loaded_from zero_state (image_bytes [19, 65]) 2)
      = .returned true { loaded_from zero_state (image_bytes [19, 65]) 2 with
          pc := 4, output := [65] } := by
  constructor
  · exact execute_succ_exit 0 _ _ _ (by decide) (by rfl)
  · rw [execute_succ_ok 0 _ { loaded_from zero_state (image_bytes [19, 65]) 2 with
          pc := 4, output := [65] } (by decide) (by rfl)]
    exact execute_done 0 _ (by decide)

/-- C12, on a concrete image: `MOD r0, 5, 0` evaluates `5 % 0`, which C leaves
undefined; no `VM_error` is called. -/
theorem C12_mod_zero_is_undefined :
    VM_execute 1 (loaded_state [11, 32768, 5, 0])
      = .exited .undefined { loaded_state [11, 32768, 5, 0] with pc := 8 } := by
  exact execute_succ_exit 0 _ _ _ (by decide)
    (cycle_eval _ (image_bytes [11, 32768, 5, 0]) 11 ⟨"MOD", 3⟩ VM_opcode_mod [32768, 5, 0] _
      (by rfl) (by rfl) (by rfl) (by rfl) (by rfl) (by rfl) (by rfl))

/-- C13, on the image `[HALT]` loaded into a cleared structure: the run ends
inside the loop through `VM_error ("program halted")`, the exit every fault
takes, and `VM_execute` does not return. -/
theorem C13_halt_is_error_exit :
    VM_execute 1 (loaded_state [0])
      = .exited (.fatal .program_halted) { loaded_state [0] with pc := 2 } := by
  exact execute_succ_exit 0 _ _ _ (by decide) (by rfl)

/-- C13, as the code behaves: initialising a VM from a structure whose `pc` is 0, loading
the one-word image `[HALT]` and executing it ends the run in the handler of
HALT, through `VM_error ("program halted")`, with all 8 registers equal to 0
and an empty stack. -/
theorem C13_halt_run (state : vm_state_t) (fuel : Nat) (hpc : state.pc = 0) :
    VM_execute (fuel + 1) (loaded_from state (image_bytes [0]) 2)
      = .exited (.fatal .program_halted)
          { loaded_from state (image_bytes [0]) 2 with pc := 2 } ∧
    (loaded_from state (image_bytes [0]) 2).registers = [0, 0, 0, 0, 0, 0, 0, 0] ∧
    (loaded_from state (image_bytes [0]) 2).stack.size = 0 := by
  have hl := loaded_from_eq state (image_bytes [0]) 2 (by decide)
  have hpc0 : (loaded_from state (image_bytes [0]) 2).pc = 0 := by rw [hl]; exact hpc
  have hsize : (loaded_from state (image_bytes [0]) 2).stack.size = 0 := by rw [hl]
  have hsz : (loaded_from state (image_bytes [0]) 2).buffer.size = 2 := by rw [hl]
  refine ⟨?_, by rw [hl]; rfl, hsize⟩
  apply execute_succ_exit fuel _ _ _ (by rw [hpc0, hsz]; decide)
  rw [cycle_decode (loaded_from state (image_bytes [0]) 2) (image_bytes [0]) 0 ⟨"HALT", 0⟩
    VM_opcode_halt [] (by rw [hl]) (by rw [hpc0]; rfl) (by rfl) (by rfl) (by rfl)
    (by intro j hj; cases hj)]
  simp only [VM_opcode_halt, print_coredump, hsize, print_coredump_loop, ok_bind, hpc0]
  rfl

theorem C13_halt_run_witness :
    VM_execute 1 (loaded_from zero_state (image_bytes [0]) 2)
      = .exited (.fatal .program_halted)
          { loaded_from zero_state (image_bytes [0]) 2 with pc := 2 } :=
  (C13_halt_run zero_state 0 (by rfl)).1

/-- C14: for every literal `c ≤ 32767`, on a VM initialised from a structure
whose `pc` is 0 and loaded with the two-word image `[19, c]`, `VM_execute`
returns true after one cycle that appended exactly the byte `c mod 256` to the
output; `pc` is then 4, the size of the image. -/
theorem C14_out_literal (state : vm_state_t) (c fuel : Nat) (hpc : state.pc = 0)
    (hc : c ≤ 32767) :
    VM_execute (fuel + 1) (loaded_from state (image_bytes [19, c]) 4)
      = .returned true { loaded_from state (image_bytes [19, c]) 4 with
          pc := 4, output := state.output ++ [c % 256] } := by
  have hl := loaded_from_eq state (image_bytes [19, c]) 4 (by decide)
  have hpc0 : (loaded_from state (image_bytes [19, c]) 4).pc = 0 := by rw [hl]; exact hpc
  have hout : (loaded_from state (image_bytes [19, c]) 4).output = state.output := by rw [hl]
  have hsz : (loaded_from state (image_bytes [19, c]) 4).buffer.size = 4 := by rw [hl]
  have hcw : word_at (image_bytes [19, c]) 2 = some c := by
    rw [word_at_image_bytes_succ 19 [c] 0]
    exact word_at_image_bytes_zero c [] (by unfold WORD_RANGE; omega)
  rw [execute_succ_ok fuel _
    { loaded_from state (image_bytes [19, c]) 4 with
          pc := 4, output := state.output ++ [c % 256] }
    (by rw [hpc0, hsz]; decide)]
  · exact execute_done fuel _ (by
      show ¬ 4 < (loaded_from state (image_bytes [19, c]) 4).buffer.size
      rw [hsz]; decide)
  · rw [cycle_decode (loaded_from state (image_bytes [19, c]) 4) (image_bytes [19, c]) 19
      ⟨"OUT", 1⟩ VM_opcode_out [c] (by rw [hl]) (by rw [hpc0]; rfl) (by rfl) (by rfl) (by rfl)
      (by
        intro j hj
        have hj0 : j = 0 := by simpa using hj
        subst hj0
        rw [hpc0]
        exact ⟨hcw, by simp only [List.getElem_cons_zero]; omega⟩)]
    simp only [VM_opcode_out, store_operands, List.set_cons_zero, List.getD_cons_zero, hpc0, hout]
    rfl

theorem C14_out_literal_witness :
    VM_execute 1 (loaded_from zero_state (image_bytes [19, 65]) 4)
      = .returned true { loaded_from zero_state (image_bytes [19, 65]) 4 with
          pc := 4, output := [65] } :=
  C14_out_literal zero_state 65 0 (by rfl) (by decide)

/-- C15, on a concrete image: on the image `PUSH 4; RET; NOP; OUT 65` the RET pops
4 and sets `pc = 4`, a byte offset: the next opcode fetched is the word at word
address 2 (the RET itself), not the `OUT` at word address 4 (byte offset 8),
and the run stops there on the empty stack without output. -/
theorem C15_ret_sets_byte_offset :
    (VM_execute_cycle (loaded_state [2, 4, 18, 21, 19, 65]) >>= VM_execute_cycle)
      = .ok { loaded_state [2, 4, 18, 21, 19, 65] with
          pc := 4,
          stack := { block := some (4 :: List.replicate 31 0), head := 0, size := 0,
                     capacity := 32 } } ∧
    VM_execute 3 (loaded_state [2, 4, 18, 21, 19, 65])
      = .exited (.fatal .pop_from_empty_stack)
          { loaded_state [2, 4, 18, 21, 19, 65] with
            pc := 6,
            stack := { block := some (4 :: List.replicate 31 0), head := 0,
                       size := 18446744073709551615, capacity := 32 } } ∧
    word_at (image_bytes [2, 4, 18, 21, 19, 65]) 4 = some 18 ∧
    word_at (image_bytes [2, 4, 18, 21, 19, 65]) (2 * 4) = some 19 := by
  have h1 : VM_execute_cycle (loaded_state [2, 4, 18, 21, 19, 65])
      = .ok { loaded_state [2, 4, 18, 21, 19, 65] with
          pc := 4,
          stack := { block := some (4 :: List.replicate 31 0), head := 1, size := 1,
                     capacity := 32 } } := by rfl
  have h2 : VM_execute_cycle { loaded_state [2, 4, 18, 21, 19, 65] with
          pc := 4,
          stack := { block := some (4 :: List.replicate 31 0), head := 1, size := 1,
                     capacity := 32 } }
      = .ok { loaded_state [2, 4, 18, 21, 19, 65] with
          pc := 4,
          stack := { block := some (4 :: List.replicate 31 0), head := 0, size := 0,
                     capacity := 32 } } := by rfl
  have h3 : VM_execute_cycle { loaded_state [2, 4, 18, 21, 19, 65] with
          pc := 4,
          stack := { block := some (4 :: List.replicate 31 0), head := 0, size := 0,
                     capacity := 32 } }
      = .error (.fatal .pop_from_empty_stack, { loaded_state [2, 4, 18, 21, 19, 65] with
            pc := 6,
            stack := { block := some (4 :: List.replicate 31 0), head := 0,
                       size := 18446744073709551615, capacity := 32 } }) := by rfl
  refine ⟨?_, ?_, by rfl, by rfl⟩
  · rw [h1, ok_bind, h2]
  · rw [execute_succ_ok 2 _ _ (by decide) h1, execute_succ_ok 1 _ _ (by decide) h2]
    exact execute_succ_exit 0 _ _ _ (by decide) h3

/-- C16, on a concrete image: on a 7-word image, `SET 6, 9` stores 9 at byte offset
6, that is in the word at word address 3; the word at word address 6, which
`VM_read_word_at (6)` reads, is still 0. -/
theorem C16_literal_target_is_byte_offset :
    VM_execute_cycle (loaded_state [1, 6, 9, 0, 0, 0, 0])
      = .ok { loaded_state [1, 6, 9, 0, 0, 0, 0] with
          pc := 6,
          buffer := { buffer := some (image_bytes [1, 6, 9, 9, 0, 0, 0]), size := 14 } } ∧
    VM_read_word_at { loaded_state [1, 6, 9, 0, 0, 0, 0] with
          pc := 6,
          buffer := { buffer := some (image_bytes [1, 6, 9, 9, 0, 0, 0]), size := 14 } } 6
      = .ok 0 ∧
    VM_read_word_at { loaded_state [1, 6, 9, 0, 0, 0, 0] with
          pc := 6,
          buffer := { buffer := some (image_bytes [1, 6, 9, 9, 0, 0, 0]), size := 14 } } 3
      = .ok 9 := by
  refine ⟨by rfl, by rfl, by rfl⟩

/-- C17, on a concrete structure: `VM_initialize` on a structure whose `pc` field holds
7 succeeds and leaves `pc = 7`; registers, stack and buffer pointer are set as
claimed. -/
theorem C17_initialize_keeps_pc :
    VM_initialize { zero_state with pc := 7 } true
      = (true, { zero_state with
          pc := 7,
          registers := [0, 0, 0, 0, 0, 0, 0, 0],
          stack := { block := some (List.replicate 32 0), head := 0, size := 0,
                     capacity := 32 } }) := by
  rfl

/-- C18: for operands `a`, `b` that resolve to `va`, `vb` with `vb ≤ 32767`, the
handler of JT sets `pc` to `2 * vb`, the byte offset of word address `vb`, when
`va ≠ 0` and returns the state unchanged (so `pc` stays where the fetch left
it, at the following instruction) when `va = 0`; JF does the same with the
condition reversed, so exactly one of the two transfers control; JMP with
operand `b` always sets `pc` to `2 * vb`. In every case nothing but `pc`
changes. -/
theorem C18_jumps (self : vm_state_t) (a b va vb : Nat)
    (hva : VM_interpret_value self a = .ok va) (hvb : VM_interpret_value self b = .ok vb)
    (hb : vb ≤ 32767) :
    (va ≠ 0 → VM_opcode_jt self [a, b, 0] = .ok { self with pc := 2 * vb } ∧
      VM_opcode_jf self [a, b, 0] = .ok self) ∧
    (va = 0 → VM_opcode_jf self [a, b, 0] = .ok { self with pc := 2 * vb } ∧
      VM_opcode_jt self [a, b, 0] = .ok self) ∧
    VM_opcode_jmp self [b, 0, 0] = .ok { self with pc := 2 * vb } := by
  have hj := jmp_eq self b vb [0] hvb hb
  refine ⟨?_, ?_, jmp_eq self b vb [0, 0] hvb hb⟩
  · intro h
    constructor
    · simp only [VM_opcode_jt, List.getD_cons_zero, hva, ok_bind, ne_eq, h, not_false_eq_true,
        if_true, List.drop_succ_cons, List.drop_zero, hj]
    · simp only [VM_opcode_jf, List.getD_cons_zero, hva, ok_bind, h, if_false, pure_eq_ok]
  · intro h
    constructor
    · simp only [VM_opcode_jf, List.getD_cons_zero, hva, ok_bind, h, if_true,
        List.drop_succ_cons, List.drop_zero, hj]
    · simp only [VM_opcode_jt, List.getD_cons_zero, hva, ok_bind, ne_eq, h, not_true_eq_false,
        if_false, pure_eq_ok]

theorem C18_jumps_witness :
    (VM_opcode_jt { loaded_state [7, 32768, 5] with registers := [1, 0, 0, 0, 0, 0, 0, 0] }
        [32768, 5, 0]
      = .ok { loaded_state [7, 32768, 5] with
          registers := [1, 0, 0, 0, 0, 0, 0, 0], pc := 2 * 5 } ∧
     VM_opcode_jf { loaded_state [7, 32768, 5] with registers := [1, 0, 0, 0, 0, 0, 0, 0] }
        [32768, 5, 0]
      = .ok { loaded_state [7, 32768, 5] with registers := [1, 0, 0, 0, 0, 0, 0, 0] }) ∧
    (VM_opcode_jf (loaded_state [7, 32768, 5]) [32768, 5, 0]
      = .ok { loaded_state [7, 32768, 5] with pc := 2 * 5 } ∧
     VM_opcode_jt (loaded_state [7, 32768, 5]) [32768, 5, 0]
      = .ok (loaded_state [7, 32768, 5])) :=
  ⟨(C18_jumps { loaded_state [7, 32768, 5] with registers := [1, 0, 0, 0, 0, 0, 0, 0] }
      32768 5 1 5 (by rfl) (by rfl) (by decide)).1 (by decide),
   (C18_jumps (loaded_state [7, 32768, 5]) 32768 5 0 5 (by rfl) (by rfl) (by decide)).2.1
      (by rfl)⟩

/-- C19, on a concrete image: on an image of 65536 bytes whose first instruction is
`JMP 32767` and whose last word is `NOP`, the cycle of that `NOP` (at byte
offset 65534) leaves `pc = 0`: the 16-bit `pc` wraps instead of reaching the
image size, `pc < size` still holds and the loop goes on from the start of the
image. -/
theorem C19_pc_wraps_at_image_end :
    VM_execute_cycle (loaded_from zero_state wrap_image 65536)
      = .ok { loaded_from zero_state wrap_image 65536 with pc := 65534 } ∧
    VM_execute_cycle { loaded_from zero_state wrap_image 65536 with pc := 65534 }
      = .ok { loaded_from zero_state wrap_image 65536 with pc := 0 } ∧
    VM_execute 2 (loaded_from zero_state wrap_image 65536)
      = .out_of_fuel { loaded_from zero_state wrap_image 65536 with pc := 0 } ∧
    (loaded_from zero_state wrap_image 65536).buffer
      = { buffer := some wrap_image, size := 65536 } := by
  have hw := wrap_image_words
  have hws : operands_at wrap_image (loaded_from zero_state wrap_image 65536).pc 0
      [32767] = true := by
    have hpc : (loaded_from zero_state wrap_image 65536).pc = 0 := rfl
    rw [hpc]
    simp only [operands_at, operand_offset, WORD_RANGE, hw.2.1]
    decide
  have h1 : VM_execute_cycle (loaded_from zero_state wrap_image 65536)
      = .ok { loaded_from zero_state wrap_image 65536 with pc := 65534 } :=
    cycle_eval (loaded_from zero_state wrap_image 65536) wrap_image 6 ⟨"JMP", 1⟩
      VM_opcode_jmp [32767] _ (by rfl) hw.1 (by rfl) (by rfl) (by rfl) hws (by rfl)
  have h2 : VM_execute_cycle { loaded_from zero_state wrap_image 65536 with pc := 65534 }
      = .ok { loaded_from zero_state wrap_image 65536 with pc := 0 } :=
    cycle_eval { loaded_from zero_state wrap_image 65536 with pc := 65534 } wrap_image 21
      ⟨"NOP", 0⟩ VM_opcode_nop [] _ (by rfl) hw.2.2.1 (by rfl) (by rfl) (by rfl) (by rfl)
      (by rfl)
  refine ⟨h1, h2, ?_, by rfl⟩
  rw [execute_succ_ok 1 _ _ (by decide) h1, execute_succ_ok 0 _ _ (by decide) h2]
  rfl

/-- C20: for each of SET, EQ, GT, ADD, MULT, MOD, AND, OR, NOT, RMEM, called
with a register target `a` in 32768..32775, legal source operands and the
8-entry register file: if the handler returns, `pc`, stack, load buffer,
traceback, input, output and every register other than `a - 32768` are
unchanged; if it does not return, the exit is undefined behaviour (MULT beyond
`INT_MAX`, MOD by zero, RMEM outside the buffer) and nothing was written; the
handlers of SET, EQ, GT, ADD, AND, OR, NOT always return, and so does MOD with
a non-zero right operand. -/
theorem C20_register_target_frame (idx : Nat)
    (handler : vm_state_t → List Nat → vm_result vm_state_t)
    (hidx : idx ∈ register_target_opcodes) (hh : opcode_fn_table[idx]? = some handler)
    (self : vm_state_t) (a b c : Nat)
    (ha1 : 32768 ≤ a) (ha2 : a ≤ 32775) (hb : b < 32776) (hc : c < 32776)
    (hlen : self.registers.length = N_REGISTERS) :
    (∀ s', handler self [a, b, c] = .ok s' →
      s'.pc = self.pc ∧ s'.stack = self.stack ∧ s'.buffer = self.buffer ∧
      s'.traceback = self.traceback ∧ s'.input = self.input ∧ s'.output = self.output ∧
      s'.registers.length = self.registers.length ∧
      ∀ j, j ≠ a - 32768 → s'.registers[j]? = self.registers[j]?) ∧
    (∀ e s', handler self [a, b, c] = .error (e, s') → e = .undefined ∧ s' = self) ∧
    (idx ∈ total_register_target_opcodes → ∃ s', handler self [a, b, c] = .ok s') ∧
    (idx = 11 → ∀ vc, VM_interpret_value self c = .ok vc → vc ≠ 0 →
      ∃ s', handler self [a, b, c] = .ok s') := by
  rcases register_target_result idx handler hidx hh self a b c ha1 ha2 hb hc hlen with
    ⟨v, hv⟩ | ⟨hu, hwhy⟩
  · refine ⟨?_, ?_, fun _ => ⟨_, hv⟩, fun _ _ _ _ => ⟨_, hv⟩⟩
    · intro s' hs
      rw [hv] at hs
      injection hs with hs
      subst hs
      refine ⟨rfl, rfl, rfl, rfl, rfl, rfl, by simp, ?_⟩
      intro j hj
      exact List.getElem?_set_ne (Ne.symm hj)
    · intro e s' hs
      rw [hv] at hs
      cases hs
  · refine ⟨?_, ?_, ?_, ?_⟩
    · intro s' hs
      rw [hu] at hs
      simp [VM_undefined] at hs
    · intro e s' hs
      rw [hu] at hs
      simp only [VM_undefined, Except.error.injEq, Prod.mk.injEq] at hs
      exact ⟨hs.1.symm, hs.2.symm⟩
    · intro htotal
      simp only [total_register_target_opcodes, List.mem_cons, List.mem_singleton,
        List.not_mem_nil, or_false] at htotal
      rcases hwhy with ⟨h, _⟩ | ⟨h, _⟩ | ⟨h, _⟩ <;> omega
    · intro h11 vc hvc hne
      rcases hwhy with ⟨h, _⟩ | ⟨_, hz⟩ | ⟨h, _⟩
      · omega
      · rw [hvc] at hz
        injection hz with hz
        exact absurd hz hne
      · omega

theorem C20_register_target_frame_witness :
    (∃ s', VM_opcode_add (loaded_state [9, 32768, 32769, 4]) [32768, 32769, 4] = .ok s') ∧
    (∀ s', VM_opcode_add (loaded_state [9, 32768, 32769, 4]) [32768, 32769, 4] = .ok s' →
      s'.pc = (loaded_state [9, 32768, 32769, 4]).pc ∧
      s'.stack = (loaded_state [9, 32768, 32769, 4]).stack ∧
      s'.buffer = (loaded_state [9, 32768, 32769, 4]).buffer ∧
      s'.traceback = (loaded_state [9, 32768, 32769, 4]).traceback ∧
      s'.input = (loaded_state [9, 32768, 32769, 4]).input ∧
      s'.output = (loaded_state [9, 32768, 32769, 4]).output ∧
      s'.registers.length = (loaded_state [9, 32768, 32769, 4]).registers.length ∧
      ∀ j, j ≠ 32768 - 32768 →
        s'.registers[j]? = (loaded_state [9, 32768, 32769, 4]).registers[j]?) :=
  ⟨(C20_register_target_frame 9 VM_opcode_add (by decide) (by rfl)
      (loaded_state [9, 32768, 32769, 4]) 32768 32769 4 (by decide) (by decide) (by decide)
      (by decide) (by rfl)).2.2.1 (by decide),
   (C20_register_target_frame 9 VM_opcode_add (by decide) (by rfl)
      (loaded_state [9, 32768, 32769, 4]) 32768 32769 4 (by decide) (by decide) (by decide)
      (by decide) (by rfl)).1⟩

end Synacor
